import Mathlib

open scoped Classical

/-
Verification development for the mini-dodger arena combat core
(src/player.py, src/enemy.py, src/bullet.py, src/game.py, src/main.py).

Modelling conventions:
* Python floats are modelled exactly: the ammo reservoir arithmetic is over
  the rationals, the geometry (positions, directions, sqrt-based distances)
  over the reals with Real.sqrt standing for math.sqrt and the ** 0.5 idiom.
* Python lists are Lean lists; in-place index assignment is List.set.
* Python int arithmetic is over the integers; the // operator on the
  nonnegative quantities that occur here is Nat division after a cast.
* random.uniform and random.randint draws are threaded in as input streams
  (a function from a counter to the drawn value); no distribution facts are
  assumed.
* Lean division by zero is total and returns 0 where Python would raise
  ZeroDivisionError; the one spot where this matters (the unguarded
  normalization in start_shooting) is discussed at the theorem concerned.
-/

/-! ## Ammo reservoir (player.py lines 88-150; enemy.py lines 122-184 are a
verbatim copy, so both classes share these definitions). -/

/-- Source: Player.has_ammo / Enemy.has_ammo. Scans the segments and reports
whether any segment holds at least a full charge. -/
def has_ammo (ammo : List ℚ) : Bool :=
  ammo.any (fun a => decide ((1 : ℚ) ≤ a))

/-- Source: the descending search loop in consume_ammo
(for i in range(len(ammo) - 1, -1, -1): if ammo[i] > 0: ...), expressed as a
recursion on the running index.  rightmostChargedAux ammo n inspects indices
n, n-1, ..., 0 and returns the first (hence largest) index holding a positive
charge. -/
def rightmostChargedAux (ammo : List ℚ) : ℕ → Option ℕ
  | 0 => if 0 < ammo.getD 0 0 then some 0 else none
  | n + 1 => if 0 < ammo.getD (n + 1) 0 then some (n + 1) else rightmostChargedAux ammo n

/-- Source: consume_ammo, the "find rightmost ammo with any charge" phase;
returns none exactly when the Python loop leaves rightmost_index = -1. -/
def rightmostCharged (ammo : List ℚ) : Option ℕ :=
  match ammo.length with
  | 0 => none
  | n + 1 => rightmostChargedAux ammo n

/-- Source: the final loop of consume_ammo
(for i in range(rightmost_index - 1, -1, -1): ...), walking indices
i, i-1, ..., 0 while a remainder is still to be drained; an entry at least as
large as the remainder absorbs it and the loop breaks, smaller positive
entries are zeroed and reduce the remainder. -/
def drainDown (ammo : List ℚ) : ℕ → ℚ → List ℚ
  | 0, rem =>
    let a := ammo.getD 0 0
    if 0 < a then (if rem ≤ a then ammo.set 0 (a - rem) else ammo.set 0 0) else ammo
  | i + 1, rem =>
    let a := ammo.getD (i + 1) 0
    if 0 < a then
      if rem ≤ a then ammo.set (i + 1) (a - rem)
      else drainDown (ammo.set (i + 1) 0) i (rem - a)
    else drainDown ammo i rem

/-- Source: Player.consume_ammo / Enemy.consume_ammo.  Returns the success
flag together with the updated reservoir (the Python method mutates self.ammo
in place and returns the flag). -/
def consume_ammo (ammo : List ℚ) : Bool × List ℚ :=
  if ammo.sum < 1 then (false, ammo)
  else
    match rightmostCharged ammo with
    | none => (false, ammo)
    | some r =>
      let a := ammo.getD r 0
      if 1 ≤ a then (true, ammo.set r 0)
      else
        -- remaining_to_consume = 1.0 - ammo[r]; ammo[r] = 0.0; drain leftwards
        match r with
        | 0 => (true, ammo.set 0 0)
        | i + 1 => (true, drainDown (ammo.set (i + 1) 0) i (1 - a))

/-- Source: the recharge loop of Player.update_ammo / Enemy.update_ammo: raise
the first (lowest-indexed) segment below full charge by the recharge rate,
clamping at 1.0, and touch nothing else. -/
def rechargeSeg (rate : ℚ) : List ℚ → List ℚ
  | [] => []
  | a :: rest =>
    if a < 1 then (if 1 < a + rate then 1 else a + rate) :: rest
    else a :: rechargeSeg rate rest

/-- Source: Player.update_ammo / Enemy.update_ammo; a no-op while recharging
is suspended. -/
def update_ammo (is_recharging : Bool) (rate : ℚ) (ammo : List ℚ) : List ℚ :=
  if is_recharging then rechargeSeg rate ammo else ammo

/-! ## Geometry layer: bullets, combatants, the round controller.
Positions, directions, speeds and distances are Python floats; they are
modelled exactly over the reals, with Real.sqrt for math.sqrt and for the
(...) ** 0.5 idiom.  All geometric definitions live in a noncomputable
section because exact real arithmetic is not executable. -/

noncomputable section

open scoped Classical

/-- Source: Bullet.__init__ fields (src/bullet.py).  The Bullet class of
src/main.py is identical except that it lacks the rel_x/rel_y bookkeeping
fields (which no method ever reads). -/
structure Bullet where
  x : ℝ
  y : ℝ
  start_x : ℝ
  start_y : ℝ
  direction : ℝ × ℝ
  speed : ℝ
  width : ℝ
  height : ℝ
  color : ℕ × ℕ × ℕ
  active : Bool
  max_distance : ℝ
  distance_traveled : ℝ
  rel_x : ℝ
  rel_y : ℝ

/-- Source: Bullet.__init__ (src/bullet.py lines 6-33). -/
def Bullet.init (x y : ℝ) (direction : ℝ × ℝ) (speed : ℝ) (size : ℝ × ℝ)
    (color : ℕ × ℕ × ℕ) (max_distance : ℝ) : Bullet :=
  { x := x, y := y, start_x := x, start_y := y, direction := direction,
    speed := speed, width := size.1, height := size.2, color := color,
    active := true, max_distance := max_distance, distance_traveled := 0,
    rel_x := 0, rel_y := 0 }

/-- Source: Bullet.update (src/bullet.py lines 35-70).  player_dx/player_dy
are the carrier-velocity arguments (defaulted to 0 at every call site in
src/game.py); Bullet.update of src/main.py is the same code without them. -/
def Bullet.update (b : Bullet) (screen_width screen_height : ℝ)
    (player_dx player_dy : ℝ) : Bullet :=
  let x1 := b.x + player_dx + b.direction.1 * b.speed
  let y1 := b.y + player_dy + b.direction.2 * b.speed
  let sx := b.start_x + player_dx
  let sy := b.start_y + player_dy
  let dist := Real.sqrt ((x1 - sx) * (x1 - sx) + (y1 - sy) * (y1 - sy))
  let b1 : Bullet :=
    { b with
      x := x1, y := y1, start_x := sx, start_y := sy, distance_traveled := dist }
  if dist ≥ b.max_distance then { b1 with active := false }
  else if x1 < -b.width ∨ x1 > screen_width + b.width ∨
      y1 < -b.height ∨ y1 > screen_height + b.height then { b1 with active := false }
  else b1

/-- One pending shot of a fire queue: the tuple
(bullet_dir, column_delay, offset_x, offset_y) appended by start_shooting. -/
structure QEntry where
  dir : ℝ × ℝ
  delay : ℤ
  offset_x : ℝ
  offset_y : ℝ

/-- Source: the body of the queue-building loop of start_shooting, shared
verbatim by Player.start_shooting (src/player.py lines 172-201),
Enemy.start_shooting (src/enemy.py lines 221-246) and the
Player.start_shooting of src/main.py (lines 174-203).  rnd i is the pair of
random.uniform(-spread, spread) draws of iteration i.  Note that the
normalization dividing by length is NOT guarded against length = 0 in the
source; Lean total division returns 0 there, where Python would raise
ZeroDivisionError. -/
def mkShot (aim : ℝ × ℝ) (column_offset : ℝ) (bullet_delay : ℤ)
    (rnd : ℕ → ℝ × ℝ) (i : ℕ) : QEntry :=
  let spread := rnd i
  let dir_x := aim.1 + spread.1
  let dir_y := aim.2 + spread.2
  let length := Real.sqrt (dir_x ^ 2 + dir_y ^ 2)
  let bullet_dir := (dir_x / length, dir_y / length)
  let is_left_column := i % 2 = 0
  let offset_factor : ℝ := if is_left_column then -0.5 else 0.5
  let perp_x := -aim.2
  let perp_y := aim.1
  let column_delay : ℤ :=
    bullet_delay * ((i / 2 : ℕ) : ℤ) + (if is_left_column then 0 else Int.fdiv bullet_delay 2)
  { dir := bullet_dir, delay := column_delay,
    offset_x := perp_x * column_offset * offset_factor,
    offset_y := perp_y * column_offset * offset_factor }

/-- Source: the queue-processing loop of update_shooting (src/player.py lines
212-243, src/enemy.py lines 257-284, src/main.py lines 214-245): entries whose
delay has reached 0 are realized as bullets at the owner position plus the
stored lateral offset and removed, every other entry has its delay
decremented; order is preserved on both sides. -/
def processQueue (x y : ℝ) (bullet_speed : ℝ) (bullet_size : ℝ × ℝ)
    (bullet_color : ℕ × ℕ × ℕ) (indicator_length : ℝ) :
    List QEntry → List Bullet × List QEntry
  | [] => ([], [])
  | e :: rest =>
    let r := processQueue x y bullet_speed bullet_size bullet_color indicator_length rest
    if e.delay ≤ 0 then
      (Bullet.init (x + e.offset_x) (y + e.offset_y) e.dir bullet_speed bullet_size
        bullet_color indicator_length :: r.1, r.2)
    else (r.1, { e with delay := e.delay - 1 } :: r.2)

/-- Source: Player.__init__ state (src/player.py lines 9-50).  The target of
an aim is passed to the methods that read it; the bullet configuration
constants are instance fields, recorded here as structure fields.  There is
deliberately no health field and no take_damage operation: the Player class of
src/player.py defines neither. -/
structure Player where
  x : ℝ
  y : ℝ
  radius : ℝ
  color : ℕ × ℕ × ℕ
  speed : ℝ
  aiming : Bool
  aim_direction : ℝ × ℝ
  shooting : Bool
  bullets_to_fire : ℤ
  bullet_queue : List QEntry
  max_ammo : ℕ
  ammo : List ℚ
  ammo_recharge_rate : ℚ
  is_recharging : Bool
  bullet_count : ℕ
  bullet_delay : ℤ
  bullet_speed : ℝ
  bullet_size : ℝ × ℝ
  bullet_color : ℕ × ℕ × ℕ
  bullet_spread : ℝ
  column_offset : ℝ
  indicator_length : ℝ

/-- Source: Player.__init__ (src/player.py). -/
def Player.init (x y radius : ℝ) (color : ℕ × ℕ × ℕ) (speed : ℝ) : Player :=
  { x := x, y := y, radius := radius, color := color, speed := speed,
    aiming := false, aim_direction := (1, 0), shooting := false,
    bullets_to_fire := 0, bullet_queue := [], max_ammo := 3, ammo := [1, 1, 1],
    ammo_recharge_rate := 1/200, is_recharging := true, bullet_count := 12,
    bullet_delay := 5, bullet_speed := 10, bullet_size := (20, 8),
    bullet_color := (0, 0, 255), bullet_spread := 0, column_offset := 15,
    indicator_length := 300 }

/-- Source: Player.move (src/player.py lines 52-70): each axis is clamped
independently, a move that would push that axis out of bounds is dropped for
that axis only. -/
def Player.move (p : Player) (dx dy screen_width screen_height : ℝ) : Player :=
  let new_x := p.x + dx
  let new_y := p.y + dy
  let p1 := if new_x - p.radius ≥ 0 ∧ new_x + p.radius ≤ screen_width then
      { p with x := new_x } else p
  if new_y - p1.radius ≥ 0 ∧ new_y + p1.radius ≤ screen_height then
    { p1 with y := new_y } else p1

/-- Source: Player.update_aim (src/player.py lines 72-86); the division by the
vector length is guarded by length > 0, a zero-length delta leaves the aim
unchanged. -/
def Player.update_aim (p : Player) (mouse_pos : ℝ × ℝ) : Player :=
  let dx := mouse_pos.1 - p.x
  let dy := mouse_pos.2 - p.y
  let length := Real.sqrt (dx ^ 2 + dy ^ 2)
  if length > 0 then { p with aim_direction := (dx / length, dy / length) } else p

/-- Source: Player.start_shooting (src/player.py lines 152-201): rejected
while already shooting or without a full segment; consumes one ammo unit
(aborting if that fails), raises the shooting flag, suspends recharging and
precomputes the whole burst queue. -/
def Player.start_shooting (p : Player) (rnd : ℕ → ℝ × ℝ) : Player :=
  if p.shooting || !(has_ammo p.ammo) then p
  else
    let c := consume_ammo p.ammo
    if c.1 then
      { p with
        ammo := c.2, shooting := true, bullets_to_fire := (p.bullet_count : ℤ),
        is_recharging := false,
        bullet_queue := p.bullet_queue ++
          (List.range p.bullet_count).map
            (mkShot p.aim_direction p.column_offset p.bullet_delay rnd) }
    else p

/-- Source: Player.update_shooting (src/player.py lines 203-248): drains and
decrements the queue, appends the realized bullets to the shared bullet list,
and when the queue empties clears the shooting flag and resumes recharging. -/
def Player.update_shooting (p : Player) (bullets : List Bullet)
    (screen_width screen_height : ℝ) : Player × List Bullet :=
  let r := processQueue p.x p.y p.bullet_speed p.bullet_size p.bullet_color
    p.indicator_length p.bullet_queue
  let p1 := { p with bullet_queue := r.2 }
  let p2 := if r.2.length = 0 then { p1 with shooting := false, is_recharging := true }
    else p1
  (p2, bullets ++ r.1)

/-- The data the enemy AI reads from its target (a reference to the Player in
src/game.py): position and radius only. -/
structure Target where
  x : ℝ
  y : ℝ
  radius : ℝ

/-- Source: Enemy.__init__ state (src/enemy.py lines 9-59).  The target
reference is supplied to the methods that read it (as an Option, none playing
the role of Python None). -/
structure Enemy where
  x : ℝ
  y : ℝ
  radius : ℝ
  color : ℕ × ℕ × ℕ
  speed : ℝ
  aim_direction : ℝ × ℝ
  shooting : Bool
  bullets_to_fire : ℤ
  bullet_queue : List QEntry
  max_ammo : ℕ
  ammo : List ℚ
  ammo_recharge_rate : ℚ
  is_recharging : Bool
  max_health : ℤ
  health : ℤ
  attack_range : ℝ
  attack_cooldown : ℤ
  min_attack_cooldown : ℤ
  bullet_count : ℕ
  bullet_delay : ℤ
  bullet_speed : ℝ
  bullet_size : ℝ × ℝ
  bullet_color : ℕ × ℕ × ℕ
  bullet_spread : ℝ
  column_offset : ℝ
  indicator_length : ℝ

/-- Source: Enemy.__init__ (src/enemy.py). -/
def Enemy.init (x y radius : ℝ) (color : ℕ × ℕ × ℕ) (speed : ℝ) : Enemy :=
  { x := x, y := y, radius := radius, color := color, speed := speed,
    aim_direction := (1, 0), shooting := false, bullets_to_fire := 0,
    bullet_queue := [], max_ammo := 3, ammo := [1, 1, 1],
    ammo_recharge_rate := 1/200, is_recharging := true,
    max_health := 100, health := 100, attack_range := 300, attack_cooldown := 0,
    min_attack_cooldown := 60, bullet_count := 12, bullet_delay := 10,
    bullet_speed := 10, bullet_size := (20, 8), bullet_color := (0, 255, 0),
    bullet_spread := 0.05, column_offset := 15, indicator_length := 300 }

/-- Source: Enemy.move (src/enemy.py lines 88-106), identical to Player.move. -/
def Enemy.move (e : Enemy) (dx dy screen_width screen_height : ℝ) : Enemy :=
  let new_x := e.x + dx
  let new_y := e.y + dy
  let e1 := if new_x - e.radius ≥ 0 ∧ new_x + e.radius ≤ screen_width then
      { e with x := new_x } else e
  if new_y - e1.radius ≥ 0 ∧ new_y + e1.radius ≤ screen_height then
    { e1 with y := new_y } else e1

/-- Source: Enemy.move_towards_target (src/enemy.py lines 61-86): seek the
target when it is beyond attack_range minus both radii, at own speed along
the normalized (guarded by distance > 0) direction; returns the movement
applied, (0, 0) when in range or without a target. -/
def Enemy.move_towards_target (e : Enemy) (target : Option Target)
    (screen_width screen_height : ℝ) : Enemy × ℝ × ℝ :=
  match target with
  | none => (e, 0, 0)
  | some t =>
    let dx := t.x - e.x
    let dy := t.y - e.y
    let distance := Real.sqrt (dx * dx + dy * dy)
    if distance > e.attack_range - e.radius - t.radius then
      let d := if distance > 0 then (dx / distance, dy / distance) else (dx, dy)
      let move_x := d.1 * e.speed
      let move_y := d.2 * e.speed
      (Enemy.move e move_x move_y screen_width screen_height, move_x, move_y)
    else (e, 0, 0)

/-- Source: Enemy.update_aim (src/enemy.py lines 108-120); guarded like
Player.update_aim. -/
def Enemy.update_aim (e : Enemy) (target : Option Target) : Enemy :=
  match target with
  | none => e
  | some t =>
    let dx := t.x - e.x
    let dy := t.y - e.y
    let length := Real.sqrt (dx ^ 2 + dy ^ 2)
    if length > 0 then { e with aim_direction := (dx / length, dy / length) } else e

/-- Source: Enemy.can_attack_target (src/enemy.py lines 186-198). -/
def Enemy.can_attack_target (e : Enemy) (target : Option Target) : Prop :=
  match target with
  | none => False
  | some t =>
    e.shooting = false ∧ has_ammo e.ammo = true ∧
    Real.sqrt ((t.x - e.x) * (t.x - e.x) + (t.y - e.y) * (t.y - e.y))
        ≤ e.attack_range - e.radius - t.radius ∧
    e.attack_cooldown ≤ 0

/-- Source: Enemy.start_shooting (src/enemy.py lines 200-246); identical to
Player.start_shooting plus resetting the attack cooldown. -/
def Enemy.start_shooting (e : Enemy) (rnd : ℕ → ℝ × ℝ) : Enemy :=
  if e.shooting || !(has_ammo e.ammo) then e
  else
    let c := consume_ammo e.ammo
    if c.1 then
      { e with
        ammo := c.2, shooting := true, bullets_to_fire := (e.bullet_count : ℤ),
        is_recharging := false, attack_cooldown := e.min_attack_cooldown,
        bullet_queue := e.bullet_queue ++
          (List.range e.bullet_count).map
            (mkShot e.aim_direction e.column_offset e.bullet_delay rnd) }
    else e

/-- Source: Enemy.update_shooting (src/enemy.py lines 248-289), identical to
Player.update_shooting. -/
def Enemy.update_shooting (e : Enemy) (bullets : List Bullet)
    (screen_width screen_height : ℝ) : Enemy × List Bullet :=
  let r := processQueue e.x e.y e.bullet_speed e.bullet_size e.bullet_color
    e.indicator_length e.bullet_queue
  let e1 := { e with bullet_queue := r.2 }
  let e2 := if r.2.length = 0 then { e1 with shooting := false, is_recharging := true }
    else e1
  (e2, bullets ++ r.1)

/-- Source: Enemy.update (src/enemy.py lines 291-309): recharge, tick the
cooldown down, re-aim, possibly start an attack, then advance the burst. -/
def Enemy.update (e : Enemy) (target : Option Target) (rnd : ℕ → ℝ × ℝ)
    (bullets : List Bullet) (screen_width screen_height : ℝ) : Enemy × List Bullet :=
  let e1 := { e with ammo := update_ammo e.is_recharging e.ammo_recharge_rate e.ammo }
  let e2 := if e1.attack_cooldown > 0 then { e1 with attack_cooldown := e1.attack_cooldown - 1 }
    else e1
  let e3 := Enemy.update_aim e2 target
  let e4 := if e3.shooting = false ∧ Enemy.can_attack_target e3 target then
      Enemy.start_shooting e3 rnd
    else e3
  if e4.shooting then Enemy.update_shooting e4 bullets screen_width screen_height
  else (e4, bullets)

/-- Source: Enemy.take_damage (src/enemy.py lines 311-315): subtract, clamp at
0, and report death (health 0 or below after clamping). -/
def Enemy.take_damage (e : Enemy) (damage : ℤ) : Bool × Enemy :=
  let h := max 0 (e.health - damage)
  (decide (h ≤ 0), { e with health := h })

/-! ### The Player variant of src/main.py (earliest variant: no ammo system,
no health, and an unguarded start_shooting). -/

/-- Source: Player.__init__ of src/main.py (lines 91-125).  src/main.py never
initializes indicator_length in __init__ (draw_aim_indicator assigns it, with
value 300, before any bullet can be created); it is recorded here as a field
holding that value. -/
structure MainPlayer where
  x : ℝ
  y : ℝ
  radius : ℝ
  color : ℕ × ℕ × ℕ
  speed : ℝ
  aiming : Bool
  aim_direction : ℝ × ℝ
  shooting : Bool
  bullets_to_fire : ℤ
  bullet_queue : List QEntry
  bullet_count : ℕ
  bullet_delay : ℤ
  bullet_speed : ℝ
  bullet_size : ℝ × ℝ
  bullet_color : ℕ × ℕ × ℕ
  bullet_spread : ℝ
  column_offset : ℝ
  indicator_length : ℝ

/-- Source: Player.__init__ of src/main.py. -/
def MainPlayer.init (x y radius : ℝ) (color : ℕ × ℕ × ℕ) (speed : ℝ) : MainPlayer :=
  { x := x, y := y, radius := radius, color := color, speed := speed,
    aiming := false, aim_direction := (1, 0), shooting := false,
    bullets_to_fire := 0, bullet_queue := [], bullet_count := 12,
    bullet_delay := 10, bullet_speed := 10, bullet_size := (20, 8),
    bullet_color := (0, 0, 255), bullet_spread := 0, column_offset := 15,
    indicator_length := 300 }

/-- Source: Player.start_shooting of src/main.py (lines 163-203).  Unlike the
src/player.py and src/enemy.py variants there is NO guard: no check of the
shooting flag and no ammo system, the burst queue is appended
unconditionally. -/
def MainPlayer.start_shooting (p : MainPlayer) (rnd : ℕ → ℝ × ℝ) : MainPlayer :=
  { p with
    shooting := true, bullets_to_fire := (p.bullet_count : ℤ),
    bullet_queue := p.bullet_queue ++
      (List.range p.bullet_count).map
        (mkShot p.aim_direction p.column_offset p.bullet_delay rnd) }

/-- Source: Player.update_shooting of src/main.py (lines 205-249): identical
to the src/player.py version except that there is no recharging flag to
resume. -/
def MainPlayer.update_shooting (p : MainPlayer) (bullets : List Bullet)
    (screen_width screen_height : ℝ) : MainPlayer × List Bullet :=
  let r := processQueue p.x p.y p.bullet_speed p.bullet_size p.bullet_color
    p.indicator_length p.bullet_queue
  let p1 := { p with bullet_queue := r.2 }
  let p2 := if r.2.length = 0 then { p1 with shooting := false } else p1
  (p2, bullets ++ r.1)

/-! ### The round controller (src/game.py). -/

/-- Source: Game.init_game state (src/game.py lines 41-79) plus the screen
dimensions fixed in Game.__init__. -/
structure Game where
  width : ℝ
  height : ℝ
  player : Player
  enemy : Enemy
  player_bullets : List Bullet
  enemy_bullets : List Bullet
  running : Bool
  game_over : Bool
  player_bullet_damage : ℤ
  enemy_bullet_damage : ℤ
  show_hit_notification : Bool
  hit_notification_timer : ℤ
  hit_notification_duration : ℤ

/-- Source: Game.__init__ / Game.init_game (src/game.py):
player at (width // 4, height // 2) = (200, 300), enemy at
(3 * width // 4, height // 2) = (600, 300), both of radius 30. -/
def Game.init : Game :=
  { width := 800, height := 600,
    player := Player.init 200 300 30 (255, 0, 0) 5,
    enemy := Enemy.init 600 300 30 (0, 0, 255) 3,
    player_bullets := [], enemy_bullets := [],
    running := true, game_over := false,
    player_bullet_damage := 10, enemy_bullet_damage := 1,
    show_hit_notification := false, hit_notification_timer := 0,
    hit_notification_duration := 30 }

/-- Source: Game.respawn_enemy (src/game.py lines 194-213): restore full
health, then draw random positions (the stream cands supplies the
random.randint pairs) until one is at least min_distance = 300 away from the
player (the loop condition uses (dx*dx + dy*dy) ** 0.5).  The draw that is
accepted is the first satisfying one; the unused tail of the stream is
returned for later draws.  A stream with no satisfying candidate makes the
Python loop spin forever, modelled as none. -/
def respawn_enemy (e : Enemy) (player_x player_y : ℝ) (cands : ℕ → ℤ × ℤ) :
    Option (Enemy × (ℕ → ℤ × ℤ)) :=
  let e1 := { e with health := e.max_health }
  if h : ∃ n, (300 : ℝ) ≤
      Real.sqrt ((((cands n).1 : ℝ) - player_x) * (((cands n).1 : ℝ) - player_x) +
        (((cands n).2 : ℝ) - player_y) * (((cands n).2 : ℝ) - player_y)) then
    let n := Nat.find h
    some ({ e1 with x := ((cands n).1 : ℝ), y := ((cands n).2 : ℝ) },
      fun k => cands (k + n + 1))
  else none

/-- Source: the player-bullet loop of Game.update (src/game.py lines 140-160):
advance each bullet (no carrier velocity at this call site), drop inactive
ones, and on circle overlap with the enemy apply damage, drop the bullet and
respawn the enemy if it died.  The enemy state and the respawn stream evolve
left to right exactly as the Python loop mutates them. -/
def playerBulletPhase (screen_width screen_height : ℝ) (player_x player_y : ℝ)
    (damage : ℤ) (enemy : Enemy) (cands : ℕ → ℤ × ℤ) :
    List Bullet → Option (List Bullet × Enemy × (ℕ → ℤ × ℤ))
  | [] => some ([], enemy, cands)
  | b :: rest =>
    let b1 := Bullet.update b screen_width screen_height 0 0
    if b1.active = false then
      playerBulletPhase screen_width screen_height player_x player_y damage enemy cands rest
    else
      let distance := Real.sqrt ((b1.x - enemy.x) * (b1.x - enemy.x) +
        (b1.y - enemy.y) * (b1.y - enemy.y))
      if distance < enemy.radius then
        let r := Enemy.take_damage enemy damage
        if r.1 then
          match respawn_enemy r.2 player_x player_y cands with
          | none => none
          | some (e2, cands2) =>
            playerBulletPhase screen_width screen_height player_x player_y damage e2 cands2 rest
        else
          playerBulletPhase screen_width screen_height player_x player_y damage r.2 cands rest
      else
        match playerBulletPhase screen_width screen_height player_x player_y damage
            enemy cands rest with
        | none => none
        | some (bs, e2, c2) => some (b1 :: bs, e2, c2)

/-- Source: the enemy-bullet loop of Game.update (src/game.py lines 169-192):
advance each bullet, drop inactive ones, and on circle overlap with the player
the code calls self.player.take_damage(...) -- but the Player class of
src/player.py defines no take_damage method and no health attribute, so
Python raises AttributeError at that point.  The fault is modelled as none. -/
def enemyBulletPhase (screen_width screen_height : ℝ)
    (player_x player_y player_radius : ℝ) : List Bullet → Option (List Bullet)
  | [] => some []
  | b :: rest =>
    let b1 := Bullet.update b screen_width screen_height 0 0
    if b1.active = false then
      enemyBulletPhase screen_width screen_height player_x player_y player_radius rest
    else
      let distance := Real.sqrt ((b1.x - player_x) * (b1.x - player_x) +
        (b1.y - player_y) * (b1.y - player_y))
      if distance < player_radius then none
      else
        match enemyBulletPhase screen_width screen_height player_x player_y
            player_radius rest with
        | none => none
        | some bs => some (b1 :: bs)

/-- The per-frame key state read by Game.update (w/s/a/d held). -/
structure KeyInput where
  w : Bool
  s : Bool
  a : Bool
  d : Bool

/-- Source: Game.update (src/game.py lines 106-192), one simulation tick:
an immediate return while game_over is set; otherwise the hit-notification
countdown, player movement from the keys, player recharge, the player burst
advance, the player-bullet loop, enemy seek movement, Enemy.update, and the
enemy-bullet loop, in source order.  rnd feeds Enemy.start_shooting spread
draws, cands feeds respawn_enemy position draws; none models a run-time fault
(the missing Player.take_damage, or a respawn loop that never terminates). -/
def Game.update (g : Game) (keys : KeyInput) (rnd : ℕ → ℝ × ℝ)
    (cands : ℕ → ℤ × ℤ) : Option Game :=
  if g.game_over then some g
  else
    let g1 :=
      if g.show_hit_notification then
        let t := g.hit_notification_timer - 1
        if t ≤ 0 then { g with hit_notification_timer := t, show_hit_notification := false }
        else { g with hit_notification_timer := t }
      else g
    let player_dx := (if keys.a then -g1.player.speed else 0) +
      (if keys.d then g1.player.speed else 0)
    let player_dy := (if keys.w then -g1.player.speed else 0) +
      (if keys.s then g1.player.speed else 0)
    let pl1 := Player.move g1.player player_dx player_dy g1.width g1.height
    let pl2 :=
      { pl1 with ammo := update_ammo pl1.is_recharging pl1.ammo_recharge_rate pl1.ammo }
    let pr := if pl2.shooting then
        Player.update_shooting pl2 g1.player_bullets g1.width g1.height
      else (pl2, g1.player_bullets)
    match playerBulletPhase g1.width g1.height pr.1.x pr.1.y g1.player_bullet_damage
        g1.enemy cands pr.2 with
    | none => none
    | some (pbs, en1, cands1) =>
      let t : Target := { x := pr.1.x, y := pr.1.y, radius := pr.1.radius }
      let en2 := (Enemy.move_towards_target en1 (some t) g1.width g1.height).1
      let er := Enemy.update en2 (some t) rnd g1.enemy_bullets g1.width g1.height
      match enemyBulletPhase g1.width g1.height pr.1.x pr.1.y pr.1.radius er.2 with
      | none => none
      | some ebs =>
        some { g1 with
          player := pr.1, enemy := er.1, player_bullets := pbs,
          enemy_bullets := ebs }

/-- Fixture for the normalization-guard claim: an enemy whose aim direction
holds the short vector (1/20, 0) (Python code can put any pair there; the
class only ever writes unit vectors, but nothing forbids this state). -/
def shortAimEnemy : Enemy :=
  { Enemy.init 600 300 30 (0, 0, 255) 3 with aim_direction := (1/20, 0) }

/-- Fixture: a spread stream whose first draw exactly cancels the short aim
vector, which is inside the uniform(-0.05, 0.05) range of the enemy. -/
def cancelSpread : ℕ → ℝ × ℝ := fun _ => (-(1/20), 0)

/-- The spec invariant for claim C6: the shooting flag is raised exactly when
the fire queue is non-empty. -/
def shootInv (shooting : Bool) (queue : List QEntry) : Prop :=
  shooting = true ↔ queue ≠ []

/-- Fixture for claim C6: a src/main.py player captured mid-burst (shooting,
one shot still queued). -/
def midBurstMainPlayer : MainPlayer :=
  { MainPlayer.init 400 300 30 (255, 0, 0) 5 with
    shooting := true, bullet_queue := [⟨(1, 0), 3, 0, 0⟩] }

/-- Abbreviation used by the burst-timing development: decrement every queued
delay by n (one tick of update_shooting decrements by 1 without emitting when
every delay is still positive). -/
def decQueue (n : ℤ) (q : List QEntry) : List QEntry :=
  q.map (fun ent => { ent with delay := ent.delay - n })

/-- Fixture for the round-controller claim: an enemy bullet one step short of
the player center (the player of Game.init sits at (200, 300)). -/
def hitBullet : Bullet := Bullet.init 190 300 (1, 0) 10 (20, 8) (0, 255, 0) 300

/-- Fixture: no movement keys held. -/
def keysIdle : KeyInput := ⟨false, false, false, false⟩

/-- Fixture for the round-controller claim: the initial game with the enemy
parked in attack range mid-burst (so this tick starts no new burst and emits
no bullet) and one enemy bullet about to overlap the player. -/
def hitGame : Game :=
  { Game.init with
    enemy := { Game.init.enemy with
      x := 400, shooting := true, is_recharging := false,
      bullet_queue := [⟨(1, 0), 5, 0, 0⟩] },
    enemy_bullets := [hitBullet] }

/-- Driver for the burst-timing claim: one update_shooting tick of the enemy
(the screen bounds arguments are those of src/game.py and are unused by the
source method). -/
def tickShoot (s : Enemy × List Bullet) : Enemy × List Bullet :=
  Enemy.update_shooting s.1 s.2 800 600

/-- Driver: iterate update_shooting ticks. -/
def usIter : ℕ → Enemy × List Bullet → Enemy × List Bullet
  | 0, s => s
  | n + 1, s => tickShoot (usIter n s)

/-- Projection used by the burst-timing claim: where a bullet was spawned. -/
def bulletPos (b : Bullet) : ℝ × ℝ := (b.x, b.y)

end

/-! ## Helper lemmas about the reservoir primitives. -/

theorem getD_set_ne (l : List ℚ) {i j : ℕ} (v : ℚ) (h : i ≠ j) :
    (l.set i v).getD j 0 = l.getD j 0 := by
  simp [List.getD_eq_getElem?_getD, List.getElem?_set, h]

theorem sum_set_getD (l : List ℚ) (i : ℕ) (v : ℚ) (h : i < l.length) :
    (l.set i v).sum = l.sum - l.getD i 0 + v := by
  rw [List.sum_set, if_pos h]
  conv_rhs => rw [← List.sum_take_add_sum_drop l i]
  rw [List.drop_eq_getElem_cons h, List.sum_cons, List.getD_eq_getElem l 0 h]
  ring

theorem sum_take_succ (l : List ℚ) (n : ℕ) (h : n < l.length) :
    (l.take (n + 1)).sum = (l.take n).sum + l.getD n 0 := by
  rw [List.take_succ, List.sum_append, List.getD_eq_getElem l 0 h,
    List.getElem?_eq_getElem h]
  simp

theorem take_set_same (l : List ℚ) (n : ℕ) (v : ℚ) :
    (l.set n v).take n = l.take n := by
  induction l generalizing n with
  | nil => simp
  | cons a t ih =>
    cases n with
    | zero => simp
    | succ m => simpa using ih m

theorem getD_nonneg_of_bounds (l : List ℚ) (hb : ∀ a ∈ l, 0 ≤ a) (j : ℕ) :
    0 ≤ l.getD j 0 := by
  by_cases hj : j < l.length
  · rw [List.getD_eq_getElem l 0 hj]; exact hb _ (List.getElem_mem hj)
  · rw [List.getD_eq_default l 0 (le_of_not_lt hj)]

theorem raux_some (l : List ℚ) :
    ∀ n r, rightmostChargedAux l n = some r →
      r ≤ n ∧ 0 < l.getD r 0 ∧ ∀ j, r < j → j ≤ n → l.getD j 0 ≤ 0 := by
  intro n
  induction n with
  | zero =>
    intro r h
    unfold rightmostChargedAux at h
    split at h
    · cases h
      exact ⟨le_refl 0, by assumption, fun j h1 h2 => absurd (lt_of_lt_of_le h1 h2) (lt_irrefl 0)⟩
    · cases h
  | succ n ih =>
    intro r h
    unfold rightmostChargedAux at h
    split at h
    · cases h
      exact ⟨le_refl _, by assumption, fun j h1 h2 => absurd (lt_of_lt_of_le h1 h2) (lt_irrefl _)⟩
    · rcases ih r h with ⟨h1, h2, h3⟩
      refine ⟨Nat.le_succ_of_le h1, h2, fun j hj1 hj2 => ?_⟩
      rcases Nat.lt_or_ge j (n + 1) with hlt | hge
      · exact h3 j hj1 (Nat.lt_succ_iff.mp hlt)
      · have hj : j = n + 1 := le_antisymm hj2 hge
        subst hj
        exact le_of_not_lt (by assumption)

theorem raux_none (l : List ℚ) :
    ∀ n, rightmostChargedAux l n = none → ∀ j, j ≤ n → l.getD j 0 ≤ 0 := by
  intro n
  induction n with
  | zero =>
    intro h j hj
    interval_cases j
    unfold rightmostChargedAux at h
    split at h
    · cases h
    · exact le_of_not_lt (by assumption)
  | succ n ih =>
    intro h j hj
    unfold rightmostChargedAux at h
    split at h
    · cases h
    · rcases Nat.lt_or_ge j (n + 1) with hlt | hge
      · exact ih h j (Nat.lt_succ_iff.mp hlt)
      · have hj2 : j = n + 1 := le_antisymm hj hge
        subst hj2
        exact le_of_not_lt (by assumption)

theorem rightmostCharged_spec (l : List ℚ) (r : ℕ) (h : rightmostCharged l = some r) :
    r < l.length ∧ 0 < l.getD r 0 ∧ ∀ j, r < j → l.getD j 0 ≤ 0 := by
  unfold rightmostCharged at h
  rcases hl : l.length with _ | n
  · rw [hl] at h; cases h
  · rw [hl] at h
    rcases raux_some l n r h with ⟨h1, h2, h3⟩
    refine ⟨by omega, h2, fun j hj => ?_⟩
    rcases Nat.lt_or_ge j (n + 1) with hlt | hge
    · exact h3 j hj (Nat.lt_succ_iff.mp hlt)
    · exact le_of_eq (List.getD_eq_default l 0 (by omega))

theorem rightmostCharged_isSome (l : List ℚ) (j : ℕ) (hj : j < l.length)
    (hpos : 0 < l.getD j 0) : ∃ r, rightmostCharged l = some r := by
  rcases h : rightmostCharged l with _ | r
  · exfalso
    unfold rightmostCharged at h
    rcases hl : l.length with _ | n
    · omega
    · rw [hl] at h
      exact absurd (raux_none l n h j (by omega)) (not_le.mpr hpos)
  · exact ⟨r, rfl⟩

theorem drainDown_sum :
    ∀ (i : ℕ) (l : List ℚ) (rem : ℚ), i < l.length →
      (∀ j, j ≤ i → 0 ≤ l.getD j 0) → 0 < rem → rem ≤ (l.take (i + 1)).sum →
      (drainDown l i rem).sum = l.sum - rem := by
  intro i
  induction i with
  | zero =>
    intro l rem hlen hnn hpos hle
    have h1 : (l.take 1).sum = l.getD 0 0 := by
      rw [sum_take_succ l 0 hlen]; simp
    rw [h1] at hle
    unfold drainDown
    rw [if_pos (lt_of_lt_of_le hpos hle), if_pos hle, sum_set_getD l 0 _ hlen]
    ring
  | succ i ih =>
    intro l rem hlen hnn hpos hle
    rw [sum_take_succ l (i + 1) hlen] at hle
    unfold drainDown
    by_cases h0 : 0 < l.getD (i + 1) 0
    · rw [if_pos h0]
      by_cases h1 : rem ≤ l.getD (i + 1) 0
      · rw [if_pos h1, sum_set_getD l (i + 1) _ hlen]; ring
      · rw [if_neg h1]
        have hres := ih (l.set (i + 1) 0) (rem - l.getD (i + 1) 0)
          (by rw [List.length_set]; omega)
          (fun j hj => by
            rw [getD_set_ne l 0 (by omega)]; exact hnn j (by omega))
          (by linarith [not_le.mp h1])
          (by rw [take_set_same l (i + 1) 0]; linarith)
        rw [hres, sum_set_getD l (i + 1) _ hlen]
        ring
    · rw [if_neg h0]
      have hz : l.getD (i + 1) 0 = 0 :=
        le_antisymm (le_of_not_lt h0) (hnn (i + 1) (le_refl _))
      exact ih l rem (by omega) (fun j hj => hnn j (by omega)) hpos (by linarith)

theorem sum_eq_sum_take_of_suffix_nonpos (l : List ℚ) (r : ℕ)
    (hnn : ∀ a ∈ l, 0 ≤ a) (hz : ∀ j, r < j → l.getD j 0 ≤ 0) :
    l.sum = (l.take (r + 1)).sum := by
  have h0 : ∀ a ∈ l.drop (r + 1), a = 0 := by
    intro a ha
    have hge : 0 ≤ a := hnn a (List.mem_of_mem_drop ha)
    rcases List.mem_iff_getElem.mp ha with ⟨k, hk, hget⟩
    have hk2 : r + 1 + k < l.length := by
      have := hk; rw [List.length_drop] at this; omega
    have : a = l.getD (r + 1 + k) 0 := by
      rw [List.getD_eq_getElem l 0 hk2, ← hget, List.getElem_drop]
    have hle : a ≤ 0 := this ▸ hz (r + 1 + k) (by omega)
    linarith
  have := List.sum_take_add_sum_drop l (r + 1)
  rw [List.sum_eq_zero h0] at this
  linarith

/-! ## Branch equations for consume_ammo. -/

theorem consume_ammo_eq_low (ammo : List ℚ) (h : ammo.sum < 1) :
    consume_ammo ammo = (false, ammo) := by
  unfold consume_ammo
  rw [if_pos h]

theorem consume_ammo_eq_full (ammo : List ℚ) (r : ℕ) (hns : ¬ ammo.sum < 1)
    (hr : rightmostCharged ammo = some r) (h1 : 1 ≤ ammo.getD r 0) :
    consume_ammo ammo = (true, ammo.set r 0) := by
  unfold consume_ammo
  rw [if_neg hns, hr]
  simp only [eq_true h1, if_true]

theorem consume_ammo_eq_drain (ammo : List ℚ) (i : ℕ) (hns : ¬ ammo.sum < 1)
    (hr : rightmostCharged ammo = some (i + 1)) (h1 : ¬ 1 ≤ ammo.getD (i + 1) 0) :
    consume_ammo ammo
      = (true, drainDown (ammo.set (i + 1) 0) i (1 - ammo.getD (i + 1) 0)) := by
  unfold consume_ammo
  rw [if_neg hns, hr]
  simp only [eq_false h1, if_false]

theorem consume_ammo_eq_zero_case (ammo : List ℚ) (hns : ¬ ammo.sum < 1)
    (hr : rightmostCharged ammo = some 0) (h1 : ¬ 1 ≤ ammo.getD 0 0) :
    consume_ammo ammo = (true, ammo.set 0 0) := by
  unfold consume_ammo
  rw [if_neg hns, hr]
  simp only [eq_false h1, if_false]

/-- C3: on a reservoir whose segments each lie in the interval from 0 to 1 and
whose aggregate charge is exactly 1, consume_ammo succeeds and the resulting
aggregate charge is exactly 0, whatever the distribution across segments. -/
theorem claim_C3_consume_exact_unit (ammo : List ℚ)
    (hb : ∀ a ∈ ammo, 0 ≤ a ∧ a ≤ 1) (hsum : ammo.sum = 1) :
    (consume_ammo ammo).1 = true ∧ ((consume_ammo ammo).2).sum = 0 := by
  have hnn : ∀ a ∈ ammo, 0 ≤ a := fun a ha => (hb a ha).1
  have hns : ¬ ammo.sum < 1 := by rw [hsum]; exact lt_irrefl 1
  have hex : ∃ j, j < ammo.length ∧ 0 < ammo.getD j 0 := by
    by_contra hcon
    push_neg at hcon
    have hz : ammo.sum = 0 := List.sum_eq_zero (fun a ha => by
      rcases List.mem_iff_getElem.mp ha with ⟨k, hk, hget⟩
      have h2 := hcon k hk
      rw [List.getD_eq_getElem ammo 0 hk, hget] at h2
      exact le_antisymm h2 (hnn a ha))
    rw [hz] at hsum
    norm_num at hsum
  rcases hex with ⟨j, hj, hjpos⟩
  rcases rightmostCharged_isSome ammo j hj hjpos with ⟨r, hr⟩
  rcases rightmostCharged_spec ammo r hr with ⟨hrlen, hrpos, hrsuf⟩
  have htake : (ammo.take (r + 1)).sum = 1 := by
    rw [← sum_eq_sum_take_of_suffix_nonpos ammo r hnn hrsuf, hsum]
  by_cases h1 : 1 ≤ ammo.getD r 0
  · rw [consume_ammo_eq_full ammo r hns hr h1]
    refine ⟨rfl, ?_⟩
    have hub : ammo.getD r 0 ≤ 1 := by
      rw [List.getD_eq_getElem ammo 0 hrlen]
      exact (hb _ (List.getElem_mem hrlen)).2
    have heq : ammo.getD r 0 = 1 := le_antisymm hub h1
    rw [sum_set_getD ammo r 0 hrlen, hsum, heq]
    ring
  · rcases r with _ | i
    · exfalso
      rw [sum_take_succ ammo 0 hrlen, List.take_zero, List.sum_nil, zero_add] at htake
      exact h1 (le_of_eq htake.symm)
    · rw [consume_ammo_eq_drain ammo i hns hr h1]
      refine ⟨rfl, ?_⟩
      have hset : (ammo.set (i + 1) 0).sum = 1 - ammo.getD (i + 1) 0 := by
        rw [sum_set_getD ammo (i + 1) 0 hrlen, hsum]
        ring
      have hstep := sum_take_succ ammo (i + 1) hrlen
      have htk : ((ammo.set (i + 1) 0).take (i + 1)).sum = 1 - ammo.getD (i + 1) 0 := by
        rw [take_set_same]
        rw [hstep] at htake
        linarith
      have hdd := drainDown_sum i (ammo.set (i + 1) 0) (1 - ammo.getD (i + 1) 0)
        (by rw [List.length_set]; omega)
        (fun k hk => by
          rw [getD_set_ne ammo 0 (by omega)]
          exact getD_nonneg_of_bounds ammo hnn k)
        (by linarith [not_le.mp h1])
        (le_of_eq htk.symm)
      rw [hdd, hset]
      ring

/-- C3 witness: a reservoir holding the unit spread over two half-charged
segments. -/
theorem claim_C3_consume_exact_unit_witness :
    (∀ a ∈ ([1/2, 1/2, 0] : List ℚ), 0 ≤ a ∧ a ≤ 1) ∧ ([1/2, 1/2, 0] : List ℚ).sum = 1 ∧
    ((consume_ammo [1/2, 1/2, 0]).1 = true ∧ ((consume_ammo [1/2, 1/2, 0]).2).sum = 0) :=
  ⟨by norm_num, by norm_num,
    claim_C3_consume_exact_unit [1/2, 1/2, 0] (by norm_num) (by norm_num)⟩

/-- C4: consume_ammo on aggregate charge strictly below 1 fails and is an
atomic no-op: the flag is false and every segment is returned unchanged. -/
theorem claim_C4_consume_low_noop (ammo : List ℚ) (hsum : ammo.sum < 1) :
    (consume_ammo ammo).1 = false ∧ (consume_ammo ammo).2 = ammo := by
  rw [consume_ammo_eq_low ammo hsum]
  exact ⟨rfl, rfl⟩

/-- C4 witness: the spec example reservoir [0.4, 0.3, 0.0]. -/
theorem claim_C4_consume_low_noop_witness :
    ([2/5, 3/10, 0] : List ℚ).sum < 1 ∧
    ((consume_ammo [2/5, 3/10, 0]).1 = false ∧
      (consume_ammo [2/5, 3/10, 0]).2 = [2/5, 3/10, 0]) :=
  ⟨by norm_num, claim_C4_consume_low_noop [2/5, 3/10, 0] (by norm_num)⟩

/-! ## Recharge lemmas. -/

theorem rechargeSeg_eq_set :
    ∀ (l : List ℚ) (rate : ℚ) (i : ℕ), i < l.length →
      (∀ j, j < i → ¬ l.getD j 0 < 1) → l.getD i 0 < 1 →
      rechargeSeg rate l
        = l.set i (if 1 < l.getD i 0 + rate then 1 else l.getD i 0 + rate) := by
  intro l
  induction l with
  | nil => intro rate i h; simp at h
  | cons a t ih =>
    intro rate i hlen hfull hlt
    cases i with
    | zero =>
      rw [List.getD_cons_zero] at hlt
      unfold rechargeSeg
      rw [if_pos hlt]
      simp [List.getD_cons_zero]
    | succ m =>
      rw [List.getD_cons_succ] at hlt
      have ha : ¬ a < 1 := by
        have := hfull 0 (Nat.succ_pos m)
        rwa [List.getD_cons_zero] at this
      unfold rechargeSeg
      rw [if_neg ha]
      rw [ih rate m (by simpa using hlen)
        (fun j hj => by
          have := hfull (j + 1) (by omega)
          rwa [List.getD_cons_succ] at this) hlt]
      simp [List.getD_cons_succ]

theorem update_ammo_fixes_full (rate : ℚ) : ∀ N : ℕ,
    (fun l => update_ammo true rate l)^[N] [1] = [1] := by
  intro N
  induction N with
  | zero => rfl
  | succ n ih =>
    rw [Function.iterate_succ_apply]
    have h1 : update_ammo true rate [1] = [1] := by
      simp [update_ammo, rechargeSeg]
    rw [h1, ih]

theorem update_ammo_reaches_full (rate : ℚ) (hr : 0 ≤ rate) :
    ∀ (N : ℕ) (a : ℚ), 0 ≤ a → a ≤ 1 → 1 ≤ a + N * rate →
      (fun l => update_ammo true rate l)^[N] [a] = [1] := by
  intro N
  induction N with
  | zero =>
    intro a h0 h1 hN
    norm_num at hN
    have : a = 1 := le_antisymm h1 hN
    rw [this]
    rfl
  | succ n ih =>
    intro a h0 h1 hN
    rw [Function.iterate_succ_apply]
    by_cases hlt : a < 1
    · have hstep : update_ammo true rate [a]
          = [if 1 < a + rate then 1 else a + rate] := by
        unfold update_ammo rechargeSeg
        rw [if_pos rfl, if_pos hlt]
      rw [hstep]
      by_cases hclamp : 1 < a + rate
      · rw [if_pos hclamp]
        exact update_ammo_fixes_full rate n
      · rw [if_neg hclamp]
        refine ih (a + rate) (by linarith) (le_of_not_lt hclamp) ?_
        have : a + (n + 1 : ℕ) * rate = a + rate + (n : ℕ) * rate := by
          push_cast
          ring
        linarith [this ▸ hN]
    · have ha : a = 1 := le_antisymm h1 (le_of_not_lt hlt)
      subst ha
      have h1' : update_ammo true rate [1] = [1] := by
        simp [update_ammo, rechargeSeg]
      rw [h1']
      exact update_ammo_fixes_full rate n

/-- C7: a recharge tick with recharging enabled touches exactly the lowest
indexed segment that is below full charge, raising it by the recharge rate
clamped to exactly 1 (never beyond); iterating ticks from an empty single
segment with N times rate at least 1 yields exactly a full segment, so only
after the segment is full can recharging move on. -/
theorem claim_C7_recharge_tick :
    (∀ (ammo : List ℚ) (rate : ℚ) (i : ℕ), i < ammo.length →
        (∀ j, j < i → ¬ ammo.getD j 0 < 1) → ammo.getD i 0 < 1 →
        update_ammo true rate ammo
          = ammo.set i (if 1 < ammo.getD i 0 + rate then 1 else ammo.getD i 0 + rate) ∧
        (if 1 < ammo.getD i 0 + rate then (1 : ℚ) else ammo.getD i 0 + rate) ≤ 1) ∧
    (∀ (rate : ℚ) (N : ℕ), 0 ≤ rate → 1 ≤ (N : ℚ) * rate →
        (fun l => update_ammo true rate l)^[N] [0] = [1]) := by
  constructor
  · intro ammo rate i hlen hfull hlt
    refine ⟨?_, ?_⟩
    · unfold update_ammo
      rw [if_pos rfl]
      exact rechargeSeg_eq_set ammo rate i hlen hfull hlt
    · by_cases h : 1 < ammo.getD i 0 + rate
      · rw [if_pos h]
      · rw [if_neg h]
        exact le_of_not_lt h
  · intro rate N h0 hN
    refine update_ammo_reaches_full rate h0 N 0 (le_refl 0) (by norm_num) ?_
    rw [zero_add]
    exact hN

/-- C7 witness: one tick on [1, 1/2, 0] at the source rate 0.005 recharges
only the middle segment, and two ticks at rate 1/2 fill an empty segment. -/
theorem claim_C7_recharge_tick_witness :
    ((1 : ℕ) < ([1, 1/2, 0] : List ℚ).length ∧ ([1, 1/2, 0] : List ℚ).getD 1 0 < 1 ∧
      (update_ammo true (1/200) [1, 1/2, 0]
          = ([1, 1/2, 0] : List ℚ).set 1
              (if 1 < ([1, 1/2, 0] : List ℚ).getD 1 0 + 1/200 then 1
               else ([1, 1/2, 0] : List ℚ).getD 1 0 + 1/200) ∧
        (if 1 < ([1, 1/2, 0] : List ℚ).getD 1 0 + 1/200 then (1 : ℚ)
         else ([1, 1/2, 0] : List ℚ).getD 1 0 + 1/200) ≤ 1)) ∧
    (1 ≤ ((2 : ℕ) : ℚ) * (1/2) ∧
      (fun l => update_ammo true (1/2) l)^[2] [0] = [1]) := by
  refine ⟨⟨by norm_num, by norm_num, ?_⟩, ⟨by norm_num, ?_⟩⟩
  · exact claim_C7_recharge_tick.1 [1, 1/2, 0] (1/200) 1 (by norm_num)
      (fun j hj => by interval_cases j; norm_num) (by norm_num)
  · exact claim_C7_recharge_tick.2 (1/2) 2 (by norm_num) (by norm_num)

/-! ## Projectile lifetime (claim C8). -/

theorem bullet_iter_formula (x0 y0 W H w h : ℝ) (d : ℝ × ℝ) (c : ℕ × ℕ × ℕ)
    (hunit : d.1 ^ 2 + d.2 ^ 2 = 1)
    (hx1 : 300 - w ≤ x0) (hx2 : x0 ≤ W + w - 300)
    (hy1 : 300 - h ≤ y0) (hy2 : y0 ≤ H + h - 300) :
    ∀ k : ℕ, k ≤ 30 →
      (fun b => Bullet.update b W H 0 0)^[k] (Bullet.init x0 y0 d 10 (w, h) c 300) =
      { x := x0 + 10 * (k : ℝ) * d.1, y := y0 + 10 * (k : ℝ) * d.2,
        start_x := x0, start_y := y0, direction := d, speed := 10, width := w,
        height := h, color := c, active := decide (k ≤ 29), max_distance := 300,
        distance_traveled := 10 * (k : ℝ), rel_x := 0, rel_y := 0 } := by
  have hd1u : d.1 ≤ 1 := by nlinarith [sq_nonneg (d.1 - 1), sq_nonneg d.2]
  have hd1l : -1 ≤ d.1 := by nlinarith [sq_nonneg (d.1 + 1), sq_nonneg d.2]
  have hd2u : d.2 ≤ 1 := by nlinarith [sq_nonneg (d.2 - 1), sq_nonneg d.1]
  have hd2l : -1 ≤ d.2 := by nlinarith [sq_nonneg (d.2 + 1), sq_nonneg d.1]
  intro k
  induction k with
  | zero =>
    intro _
    simp [Bullet.init]
  | succ k ih =>
    intro hk
    rw [Function.iterate_succ_apply', ih (by omega)]
    have hK0 : (0 : ℝ) ≤ (k : ℝ) := Nat.cast_nonneg k
    have hK29 : (k : ℝ) ≤ 29 := by exact_mod_cast Nat.lt_succ_iff.mp (by omega)
    have harg : (x0 + 10 * (k : ℝ) * d.1 + 0 + d.1 * 10 - (x0 + 0)) *
          (x0 + 10 * (k : ℝ) * d.1 + 0 + d.1 * 10 - (x0 + 0)) +
        (y0 + 10 * (k : ℝ) * d.2 + 0 + d.2 * 10 - (y0 + 0)) *
          (y0 + 10 * (k : ℝ) * d.2 + 0 + d.2 * 10 - (y0 + 0))
        = (10 * ((k : ℝ) + 1)) ^ 2 := by
      have hexp : (x0 + 10 * (k : ℝ) * d.1 + 0 + d.1 * 10 - (x0 + 0)) *
            (x0 + 10 * (k : ℝ) * d.1 + 0 + d.1 * 10 - (x0 + 0)) +
          (y0 + 10 * (k : ℝ) * d.2 + 0 + d.2 * 10 - (y0 + 0)) *
            (y0 + 10 * (k : ℝ) * d.2 + 0 + d.2 * 10 - (y0 + 0))
          = (10 * ((k : ℝ) + 1)) ^ 2 * (d.1 ^ 2 + d.2 ^ 2) := by ring
      rw [hexp, hunit, mul_one]
    have hdist : Real.sqrt ((x0 + 10 * (k : ℝ) * d.1 + 0 + d.1 * 10 - (x0 + 0)) *
          (x0 + 10 * (k : ℝ) * d.1 + 0 + d.1 * 10 - (x0 + 0)) +
        (y0 + 10 * (k : ℝ) * d.2 + 0 + d.2 * 10 - (y0 + 0)) *
          (y0 + 10 * (k : ℝ) * d.2 + 0 + d.2 * 10 - (y0 + 0)))
        = 10 * ((k : ℝ) + 1) := by
      rw [harg, Real.sqrt_sq (by positivity)]
    simp only [Bullet.update, hdist]
    by_cases hend : (30 : ℕ) ≤ k + 1
    · have hk30 : k + 1 = 30 := by omega
      have hge : 10 * ((k : ℝ) + 1) ≥ 300 := by
        have : (k : ℝ) = 29 := by exact_mod_cast (by omega : k = 29)
        rw [this]; norm_num
      rw [if_pos hge]
      have hdec : decide (k + 1 ≤ 29) = false := by
        simp only [decide_eq_false_iff_not]
        omega
      simp only [Bullet.mk.injEq]
      and_intros <;> first | trivial | exact hdec.symm | (push_cast; ring)
    · have hklt : (k : ℝ) + 1 ≤ 29 := by
        have : (k + 1 : ℕ) ≤ 29 := by omega
        exact_mod_cast this
      have hlt : ¬ 10 * ((k : ℝ) + 1) ≥ 300 := by push_neg; linarith
      rw [if_neg hlt]
      have hKpos : (0 : ℝ) ≤ 10 * ((k : ℝ) + 1) := by positivity
      have hmul1 : -(10 * ((k : ℝ) + 1)) ≤ 10 * ((k : ℝ) + 1) * d.1 := by
        nlinarith [mul_nonneg hKpos (show (0 : ℝ) ≤ 1 + d.1 by linarith)]
      have hmul2 : 10 * ((k : ℝ) + 1) * d.1 ≤ 10 * ((k : ℝ) + 1) := by
        nlinarith [mul_nonneg hKpos (show (0 : ℝ) ≤ 1 - d.1 by linarith)]
      have hmul3 : -(10 * ((k : ℝ) + 1)) ≤ 10 * ((k : ℝ) + 1) * d.2 := by
        nlinarith [mul_nonneg hKpos (show (0 : ℝ) ≤ 1 + d.2 by linarith)]
      have hmul4 : 10 * ((k : ℝ) + 1) * d.2 ≤ 10 * ((k : ℝ) + 1) := by
        nlinarith [mul_nonneg hKpos (show (0 : ℝ) ≤ 1 - d.2 by linarith)]
      have hbound : (10 : ℝ) * ((k : ℝ) + 1) ≤ 300 := by linarith
      have hxrw : x0 + 10 * (k : ℝ) * d.1 + 0 + d.1 * 10
          = x0 + 10 * ((k : ℝ) + 1) * d.1 := by ring
      have hyrw : y0 + 10 * (k : ℝ) * d.2 + 0 + d.2 * 10
          = y0 + 10 * ((k : ℝ) + 1) * d.2 := by ring
      have hcond : ¬ (x0 + 10 * (k : ℝ) * d.1 + 0 + d.1 * 10 < -w ∨
          x0 + 10 * (k : ℝ) * d.1 + 0 + d.1 * 10 > W + w ∨
          y0 + 10 * (k : ℝ) * d.2 + 0 + d.2 * 10 < -h ∨
          y0 + 10 * (k : ℝ) * d.2 + 0 + d.2 * 10 > H + h) := by
        push_neg
        rw [hxrw, hyrw]
        refine ⟨by linarith, by linarith, by linarith, by linarith⟩
      rw [if_neg hcond]
      have hdec : decide (k ≤ 29) = decide (k + 1 ≤ 29) := by
        simp only [decide_eq_decide]
        omega
      simp only [Bullet.mk.injEq]
      and_intros <;> first | trivial | exact hdec | (push_cast; ring)

/-- C8: a bullet created with a unit direction, max_distance 300 and speed 10,
advanced with zero carrier velocity and staying inside the padded screen
bounds, is active after each of the first 29 updates and inactive after the
30th, at which point distance_traveled is exactly 300. -/
theorem claim_C8_bullet_lifetime (x0 y0 W H w h : ℝ) (d : ℝ × ℝ) (c : ℕ × ℕ × ℕ)
    (hunit : d.1 ^ 2 + d.2 ^ 2 = 1)
    (hx1 : 300 - w ≤ x0) (hx2 : x0 ≤ W + w - 300)
    (hy1 : 300 - h ≤ y0) (hy2 : y0 ≤ H + h - 300) :
    (∀ k : ℕ, 1 ≤ k → k ≤ 29 →
      ((fun b => Bullet.update b W H 0 0)^[k]
        (Bullet.init x0 y0 d 10 (w, h) c 300)).active = true) ∧
    ((fun b => Bullet.update b W H 0 0)^[30]
      (Bullet.init x0 y0 d 10 (w, h) c 300)).active = false ∧
    ((fun b => Bullet.update b W H 0 0)^[30]
      (Bullet.init x0 y0 d 10 (w, h) c 300)).distance_traveled = 300 := by
  refine ⟨fun k hk1 hk29 => ?_, ?_, ?_⟩
  · rw [bullet_iter_formula x0 y0 W H w h d c hunit hx1 hx2 hy1 hy2 k (by omega)]
    simp [hk29]
  · rw [bullet_iter_formula x0 y0 W H w h d c hunit hx1 hx2 hy1 hy2 30 (by omega)]
    simp
  · rw [bullet_iter_formula x0 y0 W H w h d c hunit hx1 hx2 hy1 hy2 30 (by omega)]
    norm_num

/-- C8 witness: a rightward bullet from the middle of the 800 by 600 screen
with the source bullet size (20, 8). -/
theorem claim_C8_bullet_lifetime_witness :
    (((1 : ℝ) ^ 2 + (0 : ℝ) ^ 2 = 1) ∧ (300 - 20 ≤ (400 : ℝ)) ∧
      ((400 : ℝ) ≤ 800 + 20 - 300) ∧ (300 - 8 ≤ (300 : ℝ)) ∧
      ((300 : ℝ) ≤ 600 + 8 - 300)) ∧
    ((∀ k : ℕ, 1 ≤ k → k ≤ 29 →
      ((fun b => Bullet.update b 800 600 0 0)^[k]
        (Bullet.init 400 300 (1, 0) 10 (20, 8) (0, 0, 255) 300)).active = true) ∧
    ((fun b => Bullet.update b 800 600 0 0)^[30]
      (Bullet.init 400 300 (1, 0) 10 (20, 8) (0, 0, 255) 300)).active = false ∧
    ((fun b => Bullet.update b 800 600 0 0)^[30]
      (Bullet.init 400 300 (1, 0) 10 (20, 8) (0, 0, 255) 300)).distance_traveled = 300) :=
  ⟨⟨by norm_num, by norm_num, by norm_num, by norm_num, by norm_num⟩,
    claim_C8_bullet_lifetime 400 300 800 600 20 8 (1, 0) (0, 0, 255)
      (by norm_num) (by norm_num) (by norm_num) (by norm_num) (by norm_num)⟩

/-! ## Claim C10: a successful has_ammo check makes consume_ammo infallible. -/

/-- C10: on a reservoir whose segments lie in the interval from 0 to 1, if
has_ammo reports a full segment then consume_ammo succeeds, so the
consumption-failure abort branch of start_shooting that follows a successful
has_ammo check can never be taken. -/
theorem claim_C10_consume_never_fails :
    (∀ ammo : List ℚ, (∀ a ∈ ammo, 0 ≤ a ∧ a ≤ 1) → has_ammo ammo = true →
      (consume_ammo ammo).1 = true) ∧
    (∀ (p : Player) (rnd : ℕ → ℝ × ℝ), (∀ a ∈ p.ammo, 0 ≤ a ∧ a ≤ 1) →
      p.shooting = false → has_ammo p.ammo = true →
      (Player.start_shooting p rnd).shooting = true) := by
  have main : ∀ ammo : List ℚ, (∀ a ∈ ammo, 0 ≤ a ∧ a ≤ 1) → has_ammo ammo = true →
      (consume_ammo ammo).1 = true := by
    intro ammo hb hha
    rcases List.any_eq_true.mp hha with ⟨a, ha, hdec⟩
    have ha1 : (1 : ℚ) ≤ a := of_decide_eq_true hdec
    have hnn : ∀ x ∈ ammo, 0 ≤ x := fun x hx => (hb x hx).1
    have hsum : 1 ≤ ammo.sum := le_trans ha1 (List.single_le_sum hnn a ha)
    have hns : ¬ ammo.sum < 1 := not_lt.mpr hsum
    rcases List.mem_iff_getElem.mp ha with ⟨j, hj, hget⟩
    have hpos : 0 < ammo.getD j 0 := by
      rw [List.getD_eq_getElem ammo 0 hj, hget]
      linarith
    rcases rightmostCharged_isSome ammo j hj hpos with ⟨r, hr⟩
    by_cases h1 : 1 ≤ ammo.getD r 0
    · rw [consume_ammo_eq_full ammo r hns hr h1]
    · rcases r with _ | i
      · rw [consume_ammo_eq_zero_case ammo hns hr h1]
      · rw [consume_ammo_eq_drain ammo i hns hr h1]
  refine ⟨main, fun p rnd hb hsh hha => ?_⟩
  have hc : (consume_ammo p.ammo).1 = true := main p.ammo hb hha
  unfold Player.start_shooting
  rw [hsh, hha]
  simp [hc]

/-- C10 witness: the full starting reservoir and the freshly constructed
player. -/
theorem claim_C10_consume_never_fails_witness :
    ((∀ a ∈ ([1, 1, 1] : List ℚ), 0 ≤ a ∧ a ≤ 1) ∧ has_ammo [1, 1, 1] = true ∧
      (consume_ammo [1, 1, 1]).1 = true) ∧
    ((Player.init 200 300 30 (255, 0, 0) 5).shooting = false ∧
      (Player.start_shooting (Player.init 200 300 30 (255, 0, 0) 5)
        (fun _ => (0, 0))).shooting = true) :=
  ⟨⟨by decide, by decide, claim_C10_consume_never_fails.1 [1, 1, 1] (by decide) (by decide)⟩,
    ⟨rfl, claim_C10_consume_never_fails.2 (Player.init 200 300 30 (255, 0, 0) 5)
      (fun _ => (0, 0)) (by norm_num [Player.init]) rfl (by norm_num [Player.init, has_ammo])⟩⟩

/-! ## Claim C2: which vector-length divisions are guarded. -/

theorem consume_full_start : consume_ammo [1, 1, 1] = (true, [1, 1, 0]) := by
  norm_num [consume_ammo, rightmostCharged, rightmostChargedAux]

theorem range_twelve :
    List.range 12 = [0, 1, 2, 3, 4, 5, 6, 7, 8, 9, 10, 11] := by rfl

/-- C2 counterexample: in Enemy.start_shooting (and identically in
Player.start_shooting) the per-shot normalization divides by the vector
length with no zero guard.  With aim (1/20, 0) and a spread draw of
(-1/20, 0) the vector to normalize has length 0; Python raises
ZeroDivisionError there, and in this total model the queued direction
becomes (0, 0), which is NOT the previous aim direction -- so the claim
that every such division is guarded and falls back to the previous
direction is false. -/
theorem claim_C2_counterexample :
    ((shortAimEnemy.aim_direction.1 + (cancelSpread 0).1) ^ 2 +
      (shortAimEnemy.aim_direction.2 + (cancelSpread 0).2) ^ 2 = 0) ∧
    ((Enemy.start_shooting shortAimEnemy cancelSpread).bullet_queue.headD
        ⟨(1, 0), 0, 0, 0⟩).dir = ((0 : ℝ), (0 : ℝ)) ∧
    shortAimEnemy.aim_direction ≠ ((0 : ℝ), (0 : ℝ)) := by
  refine ⟨?_, ?_, ?_⟩
  · norm_num [shortAimEnemy, cancelSpread, Enemy.init]
  · unfold Enemy.start_shooting
    rw [show shortAimEnemy.shooting = false from rfl,
      show shortAimEnemy.ammo = [1, 1, 1] from rfl, show has_ammo [1, 1, 1] = true by decide,
      consume_full_start]
    simp only [Bool.false_or, Bool.not_true, if_false]
    norm_num [shortAimEnemy, Enemy.init, range_twelve, mkShot, cancelSpread,
      Real.sqrt_zero]
  · intro h
    have := congrArg Prod.fst h
    norm_num [shortAimEnemy, Enemy.init] at this

/-- C2 amended: the divisions in Player.update_aim, Enemy.update_aim and the
seek normalization in Enemy.move_towards_target are guarded, and a zero-length
vector leaves the previous state unchanged; the per-shot normalizations in
start_shooting are the exception and divide unconditionally. -/
theorem claim_C2_guarded_normalizations :
    (∀ p : Player, Player.update_aim p (p.x, p.y) = p) ∧
    (∀ (e : Enemy) (t : Target), t.x = e.x → t.y = e.y →
      Enemy.update_aim e (some t) = e) ∧
    (∀ (e : Enemy) (t : Target) (W H : ℝ), t.x = e.x → t.y = e.y →
      Enemy.move_towards_target e (some t) W H = (e, 0, 0)) := by
  refine ⟨fun p => ?_, fun e t hx hy => ?_, fun e t W H hx hy => ?_⟩
  · unfold Player.update_aim
    simp
  · unfold Enemy.update_aim
    simp only [hx, hy]
    simp
  · unfold Enemy.move_towards_target Enemy.move
    simp only [hx, hy, sub_self, mul_zero, zero_mul, add_zero, Real.sqrt_zero,
      gt_iff_lt, lt_irrefl, if_false, zero_div]
    split_ifs <;> rfl

/-- C2 witness: the guarded sites applied at coincident points. -/
theorem claim_C2_guarded_normalizations_witness :
    (Player.update_aim (Player.init 200 300 30 (255, 0, 0) 5)
        ((Player.init 200 300 30 (255, 0, 0) 5).x, (Player.init 200 300 30 (255, 0, 0) 5).y)
      = Player.init 200 300 30 (255, 0, 0) 5) ∧
    ((⟨600, 300, 30⟩ : Target).x = (Enemy.init 600 300 30 (0, 0, 255) 3).x ∧
      (⟨600, 300, 30⟩ : Target).y = (Enemy.init 600 300 30 (0, 0, 255) 3).y ∧
      Enemy.update_aim (Enemy.init 600 300 30 (0, 0, 255) 3) (some ⟨600, 300, 30⟩)
        = Enemy.init 600 300 30 (0, 0, 255) 3) ∧
    (Enemy.move_towards_target (Enemy.init 600 300 30 (0, 0, 255) 3)
        (some ⟨600, 300, 30⟩) 800 600
      = (Enemy.init 600 300 30 (0, 0, 255) 3, 0, 0)) :=
  ⟨claim_C2_guarded_normalizations.1 _,
    ⟨rfl, rfl, claim_C2_guarded_normalizations.2.1 _ _ rfl rfl⟩,
    claim_C2_guarded_normalizations.2.2 _ _ 800 600 rfl rfl⟩

/-! ## Claim C6: the shooting flag / fire queue invariant. -/

theorem player_start_shooting_noop (p : Player) (rnd : ℕ → ℝ × ℝ)
    (h : p.shooting = true) : Player.start_shooting p rnd = p := by
  unfold Player.start_shooting
  rw [h]
  simp

theorem enemy_start_shooting_noop (e : Enemy) (rnd : ℕ → ℝ × ℝ)
    (h : e.shooting = true) : Enemy.start_shooting e rnd = e := by
  unfold Enemy.start_shooting
  rw [h]
  simp

theorem player_start_shooting_inv (p : Player) (rnd : ℕ → ℝ × ℝ)
    (hc : 0 < p.bullet_count) (h : shootInv p.shooting p.bullet_queue) :
    shootInv (Player.start_shooting p rnd).shooting
      (Player.start_shooting p rnd).bullet_queue := by
  by_cases hs : p.shooting = true
  · rw [player_start_shooting_noop p rnd hs]
    exact h
  · have hs2 : p.shooting = false := by
      revert hs; cases p.shooting <;> simp
    have hq : p.bullet_queue = [] := by
      by_contra hne
      exact hs (h.mpr hne)
    by_cases hha : has_ammo p.ammo = true
    · by_cases hcons : (consume_ammo p.ammo).1 = true
      · have hrange : (List.range p.bullet_count) ≠ [] := by
          simp [List.range_eq_nil]
          omega
        simp only [Player.start_shooting, hs2, hha, Bool.not_true, Bool.or_false,
          Bool.false_or, if_false, hcons, if_true]
        simp [shootInv, hq, hrange]
      · have hcons2 : (consume_ammo p.ammo).1 = false := by
          revert hcons; cases (consume_ammo p.ammo).1 <;> simp
        simp only [Player.start_shooting, hs2, hha, Bool.not_true, Bool.or_false,
          Bool.false_or, if_false, hcons2]
        simpa using h
    · have hha2 : has_ammo p.ammo = false := by
        revert hha; cases has_ammo p.ammo <;> simp
      simp only [Player.start_shooting, hs2, hha2, Bool.not_false, Bool.or_true, if_true]
      exact hs2 ▸ h

theorem enemy_start_shooting_inv (e : Enemy) (rnd : ℕ → ℝ × ℝ)
    (hc : 0 < e.bullet_count) (h : shootInv e.shooting e.bullet_queue) :
    shootInv (Enemy.start_shooting e rnd).shooting
      (Enemy.start_shooting e rnd).bullet_queue := by
  by_cases hs : e.shooting = true
  · rw [enemy_start_shooting_noop e rnd hs]
    exact h
  · have hs2 : e.shooting = false := by
      revert hs; cases e.shooting <;> simp
    have hq : e.bullet_queue = [] := by
      by_contra hne
      exact hs (h.mpr hne)
    by_cases hha : has_ammo e.ammo = true
    · by_cases hcons : (consume_ammo e.ammo).1 = true
      · have hrange : (List.range e.bullet_count) ≠ [] := by
          simp [List.range_eq_nil]
          omega
        simp only [Enemy.start_shooting, hs2, hha, Bool.not_true, Bool.or_false,
          Bool.false_or, if_false, hcons, if_true]
        simp [shootInv, hq, hrange]
      · have hcons2 : (consume_ammo e.ammo).1 = false := by
          revert hcons; cases (consume_ammo e.ammo).1 <;> simp
        simp only [Enemy.start_shooting, hs2, hha, Bool.not_true, Bool.or_false,
          Bool.false_or, if_false, hcons2]
        simpa using h
    · have hha2 : has_ammo e.ammo = false := by
        revert hha; cases has_ammo e.ammo <;> simp
      simp only [Enemy.start_shooting, hs2, hha2, Bool.not_false, Bool.or_true, if_true]
      exact hs2 ▸ h

theorem player_update_shooting_inv (p : Player) (bullets : List Bullet) (W H : ℝ)
    (h : shootInv p.shooting p.bullet_queue) :
    shootInv (Player.update_shooting p bullets W H).1.shooting
      (Player.update_shooting p bullets W H).1.bullet_queue := by
  simp only [Player.update_shooting]
  by_cases hq : (processQueue p.x p.y p.bullet_speed p.bullet_size p.bullet_color
      p.indicator_length p.bullet_queue).2.length = 0
  · rw [if_pos hq]
    have h2 : (processQueue p.x p.y p.bullet_speed p.bullet_size p.bullet_color
        p.indicator_length p.bullet_queue).2 = [] := List.length_eq_zero.mp hq
    simp [shootInv, h2]
  · rw [if_neg hq]
    have hne : (processQueue p.x p.y p.bullet_speed p.bullet_size p.bullet_color
        p.indicator_length p.bullet_queue).2 ≠ [] := by
      intro hnil
      rw [hnil] at hq
      exact hq rfl
    have hqne : p.bullet_queue ≠ [] := by
      intro hnil
      apply hne
      rw [hnil]
      rfl
    have hst : p.shooting = true := h.mpr hqne
    simp [shootInv, hst, hne]

theorem enemy_update_shooting_inv (e : Enemy) (bullets : List Bullet) (W H : ℝ)
    (h : shootInv e.shooting e.bullet_queue) :
    shootInv (Enemy.update_shooting e bullets W H).1.shooting
      (Enemy.update_shooting e bullets W H).1.bullet_queue := by
  simp only [Enemy.update_shooting]
  by_cases hq : (processQueue e.x e.y e.bullet_speed e.bullet_size e.bullet_color
      e.indicator_length e.bullet_queue).2.length = 0
  · rw [if_pos hq]
    have h2 : (processQueue e.x e.y e.bullet_speed e.bullet_size e.bullet_color
        e.indicator_length e.bullet_queue).2 = [] := List.length_eq_zero.mp hq
    simp [shootInv, h2]
  · rw [if_neg hq]
    have hne : (processQueue e.x e.y e.bullet_speed e.bullet_size e.bullet_color
        e.indicator_length e.bullet_queue).2 ≠ [] := by
      intro hnil
      rw [hnil] at hq
      exact hq rfl
    have hqne : e.bullet_queue ≠ [] := by
      intro hnil
      apply hne
      rw [hnil]
      rfl
    have hst : e.shooting = true := h.mpr hqne
    simp [shootInv, hst, hne]

theorem main_update_shooting_inv (m : MainPlayer) (bullets : List Bullet) (W H : ℝ)
    (h : shootInv m.shooting m.bullet_queue) :
    shootInv (MainPlayer.update_shooting m bullets W H).1.shooting
      (MainPlayer.update_shooting m bullets W H).1.bullet_queue := by
  simp only [MainPlayer.update_shooting]
  by_cases hq : (processQueue m.x m.y m.bullet_speed m.bullet_size m.bullet_color
      m.indicator_length m.bullet_queue).2.length = 0
  · rw [if_pos hq]
    have h2 : (processQueue m.x m.y m.bullet_speed m.bullet_size m.bullet_color
        m.indicator_length m.bullet_queue).2 = [] := List.length_eq_zero.mp hq
    simp [shootInv, h2]
  · rw [if_neg hq]
    have hne : (processQueue m.x m.y m.bullet_speed m.bullet_size m.bullet_color
        m.indicator_length m.bullet_queue).2 ≠ [] := by
      intro hnil
      rw [hnil] at hq
      exact hq rfl
    have hqne : m.bullet_queue ≠ [] := by
      intro hnil
      apply hne
      rw [hnil]
      rfl
    have hst : m.shooting = true := h.mpr hqne
    simp [shootInv, hst, hne]

theorem main_start_shooting_inv (m : MainPlayer) (rnd : ℕ → ℝ × ℝ)
    (hc : 0 < m.bullet_count) :
    shootInv (MainPlayer.start_shooting m rnd).shooting
      (MainPlayer.start_shooting m rnd).bullet_queue := by
  have hrange : (List.range m.bullet_count) ≠ [] := by
    simp [List.range_eq_nil]
    omega
  simp [MainPlayer.start_shooting, shootInv, hrange]

theorem enemy_update_aim_fields (e : Enemy) (t : Option Target) :
    (Enemy.update_aim e t).shooting = e.shooting ∧
    (Enemy.update_aim e t).bullet_queue = e.bullet_queue ∧
    (Enemy.update_aim e t).bullet_count = e.bullet_count := by
  cases t with
  | none => exact ⟨rfl, rfl, rfl⟩
  | some t =>
    simp only [Enemy.update_aim]
    split_ifs <;> exact ⟨rfl, rfl, rfl⟩

theorem enemy_update_inv (e : Enemy) (target : Option Target) (rnd : ℕ → ℝ × ℝ)
    (bullets : List Bullet) (W H : ℝ) (hc : 0 < e.bullet_count)
    (h : shootInv e.shooting e.bullet_queue) :
    shootInv (Enemy.update e target rnd bullets W H).1.shooting
      (Enemy.update e target rnd bullets W H).1.bullet_queue := by
  simp only [Enemy.update]
  set e1 : Enemy :=
    { e with ammo := update_ammo e.is_recharging e.ammo_recharge_rate e.ammo } with he1
  set e2 : Enemy := if e1.attack_cooldown > 0 then
      { e1 with attack_cooldown := e1.attack_cooldown - 1 } else e1 with he2
  set e3 : Enemy := Enemy.update_aim e2 target with he3
  set e4 : Enemy := if e3.shooting = false ∧ Enemy.can_attack_target e3 target then
      Enemy.start_shooting e3 rnd else e3 with he4
  have h2 : e2.shooting = e.shooting ∧ e2.bullet_queue = e.bullet_queue ∧
      e2.bullet_count = e.bullet_count := by
    rw [he2]
    by_cases hcd : e1.attack_cooldown > 0
    · rw [if_pos hcd]; exact ⟨rfl, rfl, rfl⟩
    · rw [if_neg hcd]; exact ⟨rfl, rfl, rfl⟩
  have h3 : e3.shooting = e.shooting ∧ e3.bullet_queue = e.bullet_queue ∧
      e3.bullet_count = e.bullet_count := by
    rcases enemy_update_aim_fields e2 target with ⟨a, b, c⟩
    rw [he3]
    exact ⟨a.trans h2.1, b.trans h2.2.1, c.trans h2.2.2⟩
  have hinv3 : shootInv e3.shooting e3.bullet_queue := by
    rw [h3.1, h3.2.1]
    exact h
  have hc3 : 0 < e3.bullet_count := by
    rw [h3.2.2]
    exact hc
  have hinv4 : shootInv e4.shooting e4.bullet_queue := by
    rw [he4]
    by_cases hatt : e3.shooting = false ∧ Enemy.can_attack_target e3 target
    · rw [if_pos hatt]
      exact enemy_start_shooting_inv e3 rnd hc3 hinv3
    · rw [if_neg hatt]
      exact hinv3
  by_cases h4s : e4.shooting = true
  · rw [if_pos h4s]
    exact enemy_update_shooting_inv e4 bullets W H hinv4
  · rw [if_neg h4s]
    exact hinv4

/-- C6 counterexample: the Player.start_shooting of src/main.py called while
a burst is active (shooting flag set, queue non-empty) does start another
burst: twelve more shots are appended to the live queue. -/
theorem claim_C6_counterexample :
    midBurstMainPlayer.shooting = true ∧
    midBurstMainPlayer.bullet_queue.length = 1 ∧
    (MainPlayer.start_shooting midBurstMainPlayer (fun _ => (0, 0))).shooting = true ∧
    (MainPlayer.start_shooting midBurstMainPlayer (fun _ => (0, 0))).bullet_queue.length
      = 13 := by
  refine ⟨rfl, rfl, rfl, ?_⟩
  simp [MainPlayer.start_shooting, midBurstMainPlayer, MainPlayer.init]

/-- C6 amended: for the src/player.py Player and the src/enemy.py Enemy the
flag-iff-nonempty-queue invariant is preserved by start_shooting (with a
positive configured bullet count), update_shooting and Enemy.update, and
start_shooting while a burst is active is a strict no-op; the src/main.py
Player preserves the same flag-queue invariant, but its unguarded
start_shooting appends a new burst even mid-burst (see the counterexample). -/
theorem claim_C6_flag_queue_invariant :
    (∀ (p : Player) (rnd : ℕ → ℝ × ℝ), p.shooting = true →
      Player.start_shooting p rnd = p) ∧
    (∀ (e : Enemy) (rnd : ℕ → ℝ × ℝ), e.shooting = true →
      Enemy.start_shooting e rnd = e) ∧
    (∀ (p : Player) (rnd : ℕ → ℝ × ℝ), 0 < p.bullet_count →
      shootInv p.shooting p.bullet_queue →
      shootInv (Player.start_shooting p rnd).shooting
        (Player.start_shooting p rnd).bullet_queue) ∧
    (∀ (p : Player) (bullets : List Bullet) (W H : ℝ),
      shootInv p.shooting p.bullet_queue →
      shootInv (Player.update_shooting p bullets W H).1.shooting
        (Player.update_shooting p bullets W H).1.bullet_queue) ∧
    (∀ (e : Enemy) (rnd : ℕ → ℝ × ℝ), 0 < e.bullet_count →
      shootInv e.shooting e.bullet_queue →
      shootInv (Enemy.start_shooting e rnd).shooting
        (Enemy.start_shooting e rnd).bullet_queue) ∧
    (∀ (e : Enemy) (bullets : List Bullet) (W H : ℝ),
      shootInv e.shooting e.bullet_queue →
      shootInv (Enemy.update_shooting e bullets W H).1.shooting
        (Enemy.update_shooting e bullets W H).1.bullet_queue) ∧
    (∀ (e : Enemy) (target : Option Target) (rnd : ℕ → ℝ × ℝ)
        (bullets : List Bullet) (W H : ℝ), 0 < e.bullet_count →
      shootInv e.shooting e.bullet_queue →
      shootInv (Enemy.update e target rnd bullets W H).1.shooting
        (Enemy.update e target rnd bullets W H).1.bullet_queue) ∧
    (∀ (m : MainPlayer) (rnd : ℕ → ℝ × ℝ), 0 < m.bullet_count →
      shootInv (MainPlayer.start_shooting m rnd).shooting
        (MainPlayer.start_shooting m rnd).bullet_queue) ∧
    (∀ (m : MainPlayer) (bullets : List Bullet) (W H : ℝ),
      shootInv m.shooting m.bullet_queue →
      shootInv (MainPlayer.update_shooting m bullets W H).1.shooting
        (MainPlayer.update_shooting m bullets W H).1.bullet_queue) :=
  ⟨player_start_shooting_noop, enemy_start_shooting_noop, player_start_shooting_inv,
    player_update_shooting_inv, enemy_start_shooting_inv, enemy_update_shooting_inv,
    enemy_update_inv, main_start_shooting_inv, main_update_shooting_inv⟩

/-- C6 witness: the invariant components applied to the freshly constructed
combatants and a mid-burst player. -/
theorem claim_C6_flag_queue_invariant_witness :
    (({ Player.init 200 300 30 (255, 0, 0) 5 with shooting := true } : Player).shooting
        = true ∧
      Player.start_shooting { Player.init 200 300 30 (255, 0, 0) 5 with shooting := true }
          (fun _ => (0, 0))
        = { Player.init 200 300 30 (255, 0, 0) 5 with shooting := true }) ∧
    (0 < (Player.init 200 300 30 (255, 0, 0) 5).bullet_count ∧
      shootInv (Player.init 200 300 30 (255, 0, 0) 5).shooting
        (Player.init 200 300 30 (255, 0, 0) 5).bullet_queue ∧
      shootInv (Player.start_shooting (Player.init 200 300 30 (255, 0, 0) 5)
          (fun _ => (0, 0))).shooting
        (Player.start_shooting (Player.init 200 300 30 (255, 0, 0) 5)
          (fun _ => (0, 0))).bullet_queue) ∧
    (0 < (Enemy.init 600 300 30 (0, 0, 255) 3).bullet_count ∧
      shootInv (Enemy.update (Enemy.init 600 300 30 (0, 0, 255) 3) none
          (fun _ => (0, 0)) [] 800 600).1.shooting
        (Enemy.update (Enemy.init 600 300 30 (0, 0, 255) 3) none
          (fun _ => (0, 0)) [] 800 600).1.bullet_queue) :=
  ⟨⟨rfl, claim_C6_flag_queue_invariant.1 _ _ rfl⟩,
    ⟨by norm_num [Player.init], by simp [shootInv, Player.init],
      claim_C6_flag_queue_invariant.2.2.1 _ _ (by norm_num [Player.init])
        (by simp [shootInv, Player.init])⟩,
    ⟨by norm_num [Enemy.init],
      claim_C6_flag_queue_invariant.2.2.2.2.2.2.1 _ none _ [] 800 600
        (by norm_num [Enemy.init]) (by simp [shootInv, Enemy.init])⟩⟩

/-! ## Claim C5: the burst schedule. -/

theorem usIter_add (m n : ℕ) (s : Enemy × List Bullet) :
    usIter (m + n) s = usIter m (usIter n s) := by
  induction m with
  | zero => simp [usIter, Nat.zero_add]
  | succ k ih =>
    have h : k + 1 + n = (k + n) + 1 := by omega
    rw [h]
    show tickShoot (usIter (k + n) s) = tickShoot (usIter k (usIter n s))
    rw [ih]

theorem processQueue_waiting (x y sp : ℝ) (sz : ℝ × ℝ) (cl : ℕ × ℕ × ℕ) (il : ℝ) :
    ∀ q : List QEntry, (∀ ent ∈ q, ¬ ent.delay ≤ 0) →
      processQueue x y sp sz cl il q = ([], decQueue 1 q) := by
  intro q
  induction q with
  | nil => intro _; rfl
  | cons a rest ih =>
    intro h
    simp only [processQueue]
    rw [if_neg (h a (List.mem_cons_self a rest)),
      ih (fun ent hent => h ent (List.mem_cons_of_mem a hent))]
    simp [decQueue]

theorem usIter_quiet : ∀ (n : ℕ) (E : Enemy) (bs : List Bullet),
    (∀ ent ∈ E.bullet_queue, (n : ℤ) ≤ ent.delay) → E.bullet_queue ≠ [] →
    usIter n (E, bs) =
      ({ E with bullet_queue := decQueue (n : ℤ) E.bullet_queue }, bs) := by
  intro n
  induction n with
  | zero =>
    intro E bs _ _
    simp [usIter, decQueue]
  | succ k ih =>
    intro E bs hd hne
    have h : k + 1 = 1 + k := by omega
    rw [h, usIter_add 1 k]
    rw [ih E bs (fun ent hent => le_trans (by push_cast; omega) (hd ent hent)) hne]
    simp only [usIter, tickShoot, Enemy.update_shooting]
    rw [processQueue_waiting _ _ _ _ _ _ (decQueue (k : ℤ) E.bullet_queue) (by
      intro ent hent
      rcases List.mem_map.mp hent with ⟨a, ha, rfl⟩
      have := hd a ha
      simp only
      push_cast at this ⊢
      omega)]
    dsimp only
    have hlen : ¬ (decQueue 1 (decQueue (k : ℤ) E.bullet_queue)).length = 0 := by
      simp [decQueue, List.length_eq_zero]
      exact hne
    rw [if_neg hlen]
    have hmap : decQueue 1 (decQueue (k : ℤ) E.bullet_queue)
        = decQueue (((k + 1 : ℕ) : ℤ)) E.bullet_queue := by
      simp only [decQueue, List.map_map]
      apply List.map_congr_left
      intro a _
      dsimp only [Function.comp]
      simp only [QEntry.mk.injEq, true_and, and_true]
      push_cast
      ring
    rw [hmap]
    simp [Nat.add_comm]

theorem decQueue_decQueue (a b : ℤ) (q : List QEntry) :
    decQueue a (decQueue b q) = decQueue (b + a) q := by
  simp only [decQueue, List.map_map]
  apply List.map_congr_left
  intro x _
  dsimp only [Function.comp]
  simp only [QEntry.mk.injEq, true_and, and_true]
  ring

theorem usIter_emit (E : Enemy) (bs : List Bullet) (d : ℝ × ℝ) (ox oy : ℝ)
    (rest : List QEntry) (hq : E.bullet_queue = ⟨d, 0, ox, oy⟩ :: rest)
    (hrest : ∀ ent ∈ rest, ¬ ent.delay ≤ 0) (hne : rest ≠ []) :
    usIter 1 (E, bs) =
      ({ E with bullet_queue := decQueue 1 rest },
        bs ++ [Bullet.init (E.x + ox) (E.y + oy) d E.bullet_speed E.bullet_size
          E.bullet_color E.indicator_length]) := by
  have hlen : ¬ (decQueue 1 rest).length = 0 := by
    simp [decQueue, List.length_eq_zero]
    exact hne
  simp only [usIter, tickShoot, Enemy.update_shooting, hq, processQueue,
    processQueue_waiting _ _ _ _ _ _ rest hrest]
  norm_num [hlen]

theorem usIter_phase (E : Enemy) (bs : List Bullet) (d : ℝ × ℝ) (ox oy : ℝ)
    (rest : List QEntry) (hq : E.bullet_queue = ⟨d, 0, ox, oy⟩ :: rest)
    (hrest : ∀ ent ∈ rest, (5 : ℤ) ≤ ent.delay) (hne : rest ≠ []) :
    usIter 5 (E, bs) =
      ({ E with bullet_queue := decQueue 5 rest },
        bs ++ [Bullet.init (E.x + ox) (E.y + oy) d E.bullet_speed E.bullet_size
          E.bullet_color E.indicator_length]) := by
  have h5 : (5 : ℕ) = 4 + 1 := rfl
  rw [h5, usIter_add 4 1]
  rw [usIter_emit E bs d ox oy rest hq (fun ent h => by have := hrest ent h; omega) hne]
  rw [usIter_quiet 4 _ _ (by
      intro ent hent
      rcases List.mem_map.mp hent with ⟨a, ha, rfl⟩
      have := hrest a ha
      dsimp only
      omega)
    (by
      simp only [decQueue, ne_eq, List.map_eq_nil_iff]
      exact hne)]
  dsimp only
  rw [decQueue_decQueue]
  norm_num

theorem usIter_drain : ∀ (m : ℕ) (E : Enemy) (bs : List Bullet)
    (d : ℕ → ℝ × ℝ) (ox oy : ℕ → ℝ),
    E.bullet_queue = (List.range (m + 1)).map
      (fun i => ⟨d i, 5 * (i : ℤ), ox i, oy i⟩) →
    usIter (5 * m + 1) (E, bs) =
      ({ E with bullet_queue := [], shooting := false, is_recharging := true },
        bs ++ (List.range (m + 1)).map (fun i => Bullet.init (E.x + ox i) (E.y + oy i)
          (d i) E.bullet_speed E.bullet_size E.bullet_color E.indicator_length)) := by
  intro m
  induction m with
  | zero =>
    intro E bs d ox oy hq
    have hr1 : List.range 1 = [0] := rfl
    have hq0 : E.bullet_queue = [⟨d 0, 0, ox 0, oy 0⟩] := by
      rw [hq]
      simp [hr1]
    simp only [usIter, tickShoot, Enemy.update_shooting, hq0, processQueue]
    norm_num [hr1]
  | succ k ih =>
    intro E bs d ox oy hq
    have hsplit : E.bullet_queue = ⟨d 0, 0, ox 0, oy 0⟩ ::
        (List.range (k + 1)).map
          (fun i => ⟨d (i + 1), 5 * ((i : ℤ) + 1), ox (i + 1), oy (i + 1)⟩) := by
      rw [hq, List.range_succ_eq_map]
      simp only [List.map_cons, List.map_map, List.cons.injEq]
      refine ⟨by norm_num, ?_⟩
      apply List.map_congr_left
      intro i _
      dsimp only [Function.comp]
      simp only [QEntry.mk.injEq, true_and, and_true]
      push_cast
      ring
    have harith : 5 * (k + 1) + 1 = (5 * k + 1) + 5 := by omega
    rw [harith, usIter_add (5 * k + 1) 5]
    rw [usIter_phase E bs (d 0) (ox 0) (oy 0) _ hsplit
      (by
        intro ent hent
        rcases List.mem_map.mp hent with ⟨i, hi, rfl⟩
        dsimp only
        omega)
      (by simp)]
    have hdec : decQueue 5 ((List.range (k + 1)).map
          (fun i => (⟨d (i + 1), 5 * ((i : ℤ) + 1), ox (i + 1), oy (i + 1)⟩ : QEntry)))
        = (List.range (k + 1)).map
            (fun i => ⟨d (i + 1), 5 * (i : ℤ), ox (i + 1), oy (i + 1)⟩) := by
      simp only [decQueue, List.map_map]
      apply List.map_congr_left
      intro i _
      dsimp only [Function.comp]
      simp only [QEntry.mk.injEq, true_and, and_true]
      ring
    rw [hdec]
    rw [ih _ _ (fun i => d (i + 1)) (fun i => ox (i + 1)) (fun i => oy (i + 1)) rfl]
    conv_rhs => rw [List.range_succ_eq_map]
    simp [List.map_cons, List.map_map, Function.comp, List.append_assoc]

theorem range_map_split (m : ℕ) (d : ℕ → ℝ × ℝ) (ox oy : ℕ → ℝ) :
    (List.range (m + 1)).map (fun i => (⟨d i, 5 * (i : ℤ), ox i, oy i⟩ : QEntry))
      = ⟨d 0, 0, ox 0, oy 0⟩ ::
        (List.range m).map
          (fun i => ⟨d (i + 1), 5 * ((i : ℤ) + 1), ox (i + 1), oy (i + 1)⟩) := by
  rw [List.range_succ_eq_map]
  simp only [List.map_cons, List.map_map, List.cons.injEq]
  refine ⟨by norm_num, ?_⟩
  apply List.map_congr_left
  intro i _
  dsimp only [Function.comp]
  simp only [QEntry.mk.injEq, true_and, and_true]
  push_cast
  ring

theorem decQueue5_shift (m : ℕ) (d : ℕ → ℝ × ℝ) (ox oy : ℕ → ℝ) :
    decQueue 5 ((List.range m).map
        (fun i => (⟨d (i + 1), 5 * ((i : ℤ) + 1), ox (i + 1), oy (i + 1)⟩ : QEntry)))
      = (List.range m).map
          (fun i => ⟨d (i + 1), 5 * (i : ℤ), ox (i + 1), oy (i + 1)⟩) := by
  simp only [decQueue, List.map_map]
  apply List.map_congr_left
  intro i _
  dsimp only [Function.comp]
  simp only [QEntry.mk.injEq, true_and, and_true]
  ring

theorem burst_run_from (E : Enemy) (d : ℕ → ℝ × ℝ) (ox oy : ℕ → ℝ)
    (hq : E.bullet_queue = (List.range 12).map
      (fun i => ⟨d i, 5 * (i : ℤ), ox i, oy i⟩)) :
    (usIter 56 (E, [])).2 = (List.range 12).map (fun i =>
        Bullet.init (E.x + ox i) (E.y + oy i) (d i) E.bullet_speed E.bullet_size
          E.bullet_color E.indicator_length) ∧
    (usIter 1 (E, [])).2 = [Bullet.init (E.x + ox 0) (E.y + oy 0) (d 0) E.bullet_speed
      E.bullet_size E.bullet_color E.indicator_length] ∧
    (usIter 5 (E, [])).2 = [Bullet.init (E.x + ox 0) (E.y + oy 0) (d 0) E.bullet_speed
      E.bullet_size E.bullet_color E.indicator_length] ∧
    (usIter 6 (E, [])).2 = [Bullet.init (E.x + ox 0) (E.y + oy 0) (d 0) E.bullet_speed
        E.bullet_size E.bullet_color E.indicator_length,
      Bullet.init (E.x + ox 1) (E.y + oy 1) (d 1) E.bullet_speed
        E.bullet_size E.bullet_color E.indicator_length] ∧
    (usIter 56 (E, [])).1.bullet_queue = [] ∧
    (usIter 56 (E, [])).1.shooting = false := by
  have h56 := usIter_drain 11 E [] d ox oy (by exact hq)
  have h5x : (5 * 11 + 1 : ℕ) = 56 := by norm_num
  rw [h5x] at h56
  have hsplit : E.bullet_queue = ⟨d 0, 0, ox 0, oy 0⟩ ::
      (List.range 11).map
        (fun i => ⟨d (i + 1), 5 * ((i : ℤ) + 1), ox (i + 1), oy (i + 1)⟩) := by
    rw [hq]
    exact range_map_split 11 d ox oy
  have hrest5 : ∀ ent ∈ (List.range 11).map
      (fun i => (⟨d (i + 1), 5 * ((i : ℤ) + 1), ox (i + 1), oy (i + 1)⟩ : QEntry)),
      (5 : ℤ) ≤ ent.delay := by
    intro ent hent
    rcases List.mem_map.mp hent with ⟨i, hi, rfl⟩
    dsimp only
    omega
  have h1 := usIter_emit E [] (d 0) (ox 0) (oy 0) _ hsplit
    (fun ent hent => by have := hrest5 ent hent; omega) (by simp)
  have h5 := usIter_phase E [] (d 0) (ox 0) (oy 0) _ hsplit hrest5 (by simp)
  have hdec5 : decQueue 5 ((List.range 11).map
      (fun i => (⟨d (i + 1), 5 * ((i : ℤ) + 1), ox (i + 1), oy (i + 1)⟩ : QEntry)))
      = ⟨d 1, 0, ox 1, oy 1⟩ ::
        (List.range 10).map
          (fun i => ⟨d (i + 2), 5 * ((i : ℤ) + 1), ox (i + 2), oy (i + 2)⟩) := by
    rw [decQueue5_shift 11 d ox oy]
    exact range_map_split 10 (fun i => d (i + 1)) (fun i => ox (i + 1)) (fun i => oy (i + 1))
  have h6 : usIter 6 (E, []) = usIter 1 (usIter 5 (E, [])) := by
    rw [← usIter_add 1 5]
  rw [h5] at h6
  have hQ1 : ({ E with bullet_queue := decQueue 5 ((List.range 11).map
      (fun i => (⟨d (i + 1), 5 * ((i : ℤ) + 1), ox (i + 1), oy (i + 1)⟩ : QEntry))) } :
        Enemy).bullet_queue
      = ⟨d 1, 0, ox 1, oy 1⟩ ::
        (List.range 10).map
          (fun i => ⟨d (i + 2), 5 * ((i : ℤ) + 1), ox (i + 2), oy (i + 2)⟩) := hdec5
  have h6e := usIter_emit
    { E with bullet_queue := decQueue 5 ((List.range 11).map
        (fun i => (⟨d (i + 1), 5 * ((i : ℤ) + 1), ox (i + 1), oy (i + 1)⟩ : QEntry))) }
    ([] ++ [Bullet.init (E.x + ox 0) (E.y + oy 0) (d 0) E.bullet_speed E.bullet_size
      E.bullet_color E.indicator_length])
    (d 1) (ox 1) (oy 1) _ hQ1
    (by
      intro ent hent
      rcases List.mem_map.mp hent with ⟨i, hi, rfl⟩
      dsimp only
      omega)
    (by simp)
  rw [h6e] at h6
  refine ⟨by rw [h56]; simp, by rw [h1]; simp, by rw [h5]; simp, ?_,
    by rw [h56], by rw [h56]⟩
  rw [h6]
  simp

theorem mkShot_delay (rnd : ℕ → ℝ × ℝ) (i : ℕ) :
    (mkShot (1, 0) 15 10 rnd i).delay = 5 * (i : ℤ) := by
  simp only [mkShot]
  by_cases hp : i % 2 = 0
  · rw [if_pos hp]
    omega
  · rw [if_neg hp]
    rw [show Int.fdiv 10 2 = 5 from by decide]
    omega

theorem mkShot_offset_x (rnd : ℕ → ℝ × ℝ) (i : ℕ) :
    (mkShot (1, 0) 15 10 rnd i).offset_x = 0 := by
  simp only [mkShot]
  split_ifs <;> norm_num

theorem mkShot_offset_y (rnd : ℕ → ℝ × ℝ) (i : ℕ) :
    (mkShot (1, 0) 15 10 rnd i).offset_y = if i % 2 = 0 then (-7.5 : ℝ) else 7.5 := by
  simp only [mkShot]
  split_ifs <;> norm_num

theorem burst_queue_shape (rnd : ℕ → ℝ × ℝ) :
    (List.range 12).map (mkShot (1, 0) 15 10 rnd)
      = (List.range 12).map (fun i => ⟨(mkShot (1, 0) 15 10 rnd i).dir, 5 * (i : ℤ),
          (mkShot (1, 0) 15 10 rnd i).offset_x, (mkShot (1, 0) 15 10 rnd i).offset_y⟩) := by
  apply List.map_congr_left
  intro i _
  conv_lhs => rw [show mkShot (1, 0) 15 10 rnd i
    = ⟨(mkShot (1, 0) 15 10 rnd i).dir, (mkShot (1, 0) 15 10 rnd i).delay,
       (mkShot (1, 0) 15 10 rnd i).offset_x, (mkShot (1, 0) 15 10 rnd i).offset_y⟩ from rfl]
  rw [mkShot_delay]

theorem enemy_start_burst (rnd : ℕ → ℝ × ℝ) :
    Enemy.start_shooting (Enemy.init 600 300 30 (0, 0, 255) 3) rnd
      = { Enemy.init 600 300 30 (0, 0, 255) 3 with
          ammo := [1, 1, 0], shooting := true, bullets_to_fire := 12,
          is_recharging := false, attack_cooldown := 60,
          bullet_queue := (List.range 12).map (mkShot (1, 0) 15 10 rnd) } := by
  simp only [Enemy.start_shooting, Enemy.init]
  norm_num [show has_ammo [1, 1, 1] = true from by decide, consume_full_start]

/-- C5: starting the src/enemy.py burst (bullet_count 12, bullet_delay 10,
column_offset 15, with the constructor aim (1, 0)) and ticking
update_shooting: exactly 12 projectiles are emitted in total (after which the
queue is empty and the shooting flag cleared), they alternate between the
left-column spawn offset (perpendicular -7.5, even indices) and the
right-column offset (+7.5, odd indices), 6 each; the first left-column
projectile appears on tick 1 and the first right-column projectile on tick 6,
exactly bullet_delay // 2 = 5 ticks later. -/
theorem claim_C5_burst_schedule (rnd : ℕ → ℝ × ℝ) :
    ((usIter 56 (Enemy.start_shooting (Enemy.init 600 300 30 (0, 0, 255) 3) rnd,
        [])).2.length = 12) ∧
    ((usIter 56 (Enemy.start_shooting (Enemy.init 600 300 30 (0, 0, 255) 3) rnd,
        [])).2.map bulletPos =
      [(600, 292.5), (600, 307.5), (600, 292.5), (600, 307.5), (600, 292.5), (600, 307.5),
       (600, 292.5), (600, 307.5), (600, 292.5), (600, 307.5), (600, 292.5), (600, 307.5)]) ∧
    ((usIter 1 (Enemy.start_shooting (Enemy.init 600 300 30 (0, 0, 255) 3) rnd,
        [])).2.map bulletPos = [(600, 292.5)]) ∧
    ((usIter 5 (Enemy.start_shooting (Enemy.init 600 300 30 (0, 0, 255) 3) rnd,
        [])).2.map bulletPos = [(600, 292.5)]) ∧
    ((usIter 6 (Enemy.start_shooting (Enemy.init 600 300 30 (0, 0, 255) 3) rnd,
        [])).2.map bulletPos = [(600, 292.5), (600, 307.5)]) ∧
    ((usIter 56 (Enemy.start_shooting (Enemy.init 600 300 30 (0, 0, 255) 3) rnd,
        [])).1.bullet_queue = []) ∧
    ((usIter 56 (Enemy.start_shooting (Enemy.init 600 300 30 (0, 0, 255) 3) rnd,
        [])).1.shooting = false) := by
  rw [enemy_start_burst rnd]
  have hrun := burst_run_from
    { Enemy.init 600 300 30 (0, 0, 255) 3 with
      ammo := [1, 1, 0], shooting := true, bullets_to_fire := 12,
      is_recharging := false, attack_cooldown := 60,
      bullet_queue := (List.range 12).map (mkShot (1, 0) 15 10 rnd) }
    (fun i => (mkShot (1, 0) 15 10 rnd i).dir)
    (fun i => (mkShot (1, 0) 15 10 rnd i).offset_x)
    (fun i => (mkShot (1, 0) 15 10 rnd i).offset_y)
    (burst_queue_shape rnd)
  rcases hrun with ⟨hA, hB, hC, hD, hE, hF⟩
  refine ⟨?_, ?_, ?_, ?_, ?_, ?_, ?_⟩
  · rw [hA]
    simp
  · rw [hA, range_twelve]
    norm_num [bulletPos, Bullet.init, mkShot_offset_x, mkShot_offset_y, Enemy.init]
  · rw [hB]
    norm_num [bulletPos, Bullet.init, mkShot_offset_x, mkShot_offset_y, Enemy.init]
  · rw [hC]
    norm_num [bulletPos, Bullet.init, mkShot_offset_x, mkShot_offset_y, Enemy.init]
  · rw [hD]
    norm_num [bulletPos, Bullet.init, mkShot_offset_x, mkShot_offset_y, Enemy.init]
  · exact hE
  · exact hF

/-! ## Claim C9: enemy damage and respawn. -/

/-- C9: take_damage at health 100 with damage 10 reports not-dead twice
leaving health 80; a hit bringing health exactly to 0 reports dead; and a
successful respawn restores health to max_health and places the enemy at
Euclidean distance at least 300 from the player. -/
theorem claim_C9_damage_respawn :
    (∀ e : Enemy, e.health = 100 →
      (Enemy.take_damage e 10).1 = false ∧ (Enemy.take_damage e 10).2.health = 90 ∧
      (Enemy.take_damage (Enemy.take_damage e 10).2 10).1 = false ∧
      (Enemy.take_damage (Enemy.take_damage e 10).2 10).2.health = 80) ∧
    (∀ (e : Enemy) (dmg : ℤ), e.health = dmg →
      (Enemy.take_damage e dmg).1 = true ∧ (Enemy.take_damage e dmg).2.health = 0) ∧
    (∀ (e : Enemy) (px py : ℝ) (cands : ℕ → ℤ × ℤ),
      (∃ n, (300 : ℝ) ≤ Real.sqrt ((((cands n).1 : ℝ) - px) * (((cands n).1 : ℝ) - px) +
        (((cands n).2 : ℝ) - py) * (((cands n).2 : ℝ) - py))) →
      ∃ (e2 : Enemy) (c2 : ℕ → ℤ × ℤ),
        respawn_enemy e px py cands = some (e2, c2) ∧
        e2.health = e.max_health ∧
        (300 : ℝ) ≤ Real.sqrt ((e2.x - px) * (e2.x - px) + (e2.y - py) * (e2.y - py))) := by
  refine ⟨fun e h => ?_, fun e dmg h => ?_, fun e px py cands h => ?_⟩
  · simp only [Enemy.take_damage, h]
    norm_num
  · simp only [Enemy.take_damage, h]
    norm_num
  · unfold respawn_enemy
    rw [dif_pos h]
    refine ⟨_, _, rfl, rfl, ?_⟩
    simpa using Nat.find_spec h

/-- C9 witness: the constructed enemy, an enemy at 10 health, and a candidate
stream whose first draw is 400 units above the player. -/
theorem claim_C9_damage_respawn_witness :
    ((Enemy.init 600 300 30 (0, 0, 255) 3).health = 100 ∧
      (Enemy.take_damage (Enemy.init 600 300 30 (0, 0, 255) 3) 10).1 = false ∧
      (Enemy.take_damage (Enemy.init 600 300 30 (0, 0, 255) 3) 10).2.health = 90 ∧
      (Enemy.take_damage (Enemy.take_damage (Enemy.init 600 300 30 (0, 0, 255) 3) 10).2
        10).1 = false ∧
      (Enemy.take_damage (Enemy.take_damage (Enemy.init 600 300 30 (0, 0, 255) 3) 10).2
        10).2.health = 80) ∧
    (({ Enemy.init 600 300 30 (0, 0, 255) 3 with health := 10 } : Enemy).health = 10 ∧
      (Enemy.take_damage { Enemy.init 600 300 30 (0, 0, 255) 3 with health := 10 }
        10).1 = true) ∧
    (∃ (e2 : Enemy) (c2 : ℕ → ℤ × ℤ),
      respawn_enemy (Enemy.init 600 300 30 (0, 0, 255) 3) 200 300
          (fun _ => (200, 700)) = some (e2, c2) ∧
      e2.health = (Enemy.init 600 300 30 (0, 0, 255) 3).max_health ∧
      (300 : ℝ) ≤ Real.sqrt ((e2.x - 200) * (e2.x - 200) + (e2.y - 300) * (e2.y - 300))) := by
  have hcand : ∃ n, (300 : ℝ) ≤ Real.sqrt
      (((((fun _ : ℕ => ((200 : ℤ), (700 : ℤ))) n).1 : ℝ) - 200) *
        ((((fun _ : ℕ => ((200 : ℤ), (700 : ℤ))) n).1 : ℝ) - 200) +
       ((((fun _ : ℕ => ((200 : ℤ), (700 : ℤ))) n).2 : ℝ) - 300) *
        ((((fun _ : ℕ => ((200 : ℤ), (700 : ℤ))) n).2 : ℝ) - 300)) := by
    refine ⟨0, ?_⟩
    norm_num
    rw [show ((160000 : ℝ)) = 400 ^ 2 by norm_num,
      Real.sqrt_sq (by norm_num : (0 : ℝ) ≤ 400)]
    norm_num
  refine ⟨⟨rfl, claim_C9_damage_respawn.1 (Enemy.init 600 300 30 (0, 0, 255) 3) rfl⟩,
    ⟨rfl, (claim_C9_damage_respawn.2.1 _ 10 rfl).1⟩,
    claim_C9_damage_respawn.2.2 (Enemy.init 600 300 30 (0, 0, 255) 3) 200 300
      (fun _ => (200, 700)) hcand⟩

/-! ## Claim C1: the round controller on game over, and the missing
Player.take_damage. -/

theorem sqrt_forty_thousand : Real.sqrt 40000 = 200 := by
  rw [show (40000 : ℝ) = 200 ^ 2 by norm_num,
    Real.sqrt_sq (by norm_num : (0 : ℝ) ≤ 200)]

theorem sqrt_hundred : Real.sqrt 100 = 10 := by
  rw [show (100 : ℝ) = 10 ^ 2 by norm_num,
    Real.sqrt_sq (by norm_num : (0 : ℝ) ≤ 10)]

/-- C1 evidence: (a) while game_over is set, Game.update returns the state
unchanged -- no movement, no AI, no projectile advancement; (b) BUT the
transition into game over is unreachable as written: on a tick where an
enemy bullet overlaps the player, game.py line 182 calls
self.player.take_damage, a method the Player class of src/player.py does not
define, so the tick raises AttributeError (modelled as none) instead of
decrementing player health or setting game_over. -/
theorem claim_C1_gameover_and_missing_take_damage :
    (∀ (g : Game) (keys : KeyInput) (rnd : ℕ → ℝ × ℝ) (cands : ℕ → ℤ × ℤ),
      g.game_over = true → Game.update g keys rnd cands = some g) ∧
    Game.update hitGame keysIdle (fun _ => (0, 0)) (fun _ => (0, 0)) = none := by
  constructor
  · intro g keys rnd cands h
    unfold Game.update
    rw [if_pos h]
  · norm_num [Game.update, hitGame, Game.init, keysIdle, Player.init, Enemy.init,
      Player.move, update_ammo, rechargeSeg, playerBulletPhase,
      Enemy.move_towards_target, Enemy.update, Enemy.update_aim,
      Enemy.can_attack_target, Enemy.update_shooting, processQueue,
      enemyBulletPhase, Bullet.update, Bullet.init, hitBullet, apply_ite,
      sqrt_forty_thousand, sqrt_hundred, Real.sqrt_zero]

/-- C1 witness: the game-over state is a fixed point of Game.update. -/
theorem claim_C1_gameover_witness :
    ({ Game.init with game_over := true } : Game).game_over = true ∧
    Game.update { Game.init with game_over := true } keysIdle (fun _ => (0, 0))
        (fun _ => (0, 0))
      = some { Game.init with game_over := true } :=
  ⟨rfl, claim_C1_gameover_and_missing_take_damage.1 _ keysIdle _ _ rfl⟩
